import Mathlib

/-!
Verification of the pyjaubas BAS codec (src/pyjaubas/bas.py).

The development shallowly embeds the codec:

* Buffers are `List Nat`, one element per byte (a well-formed buffer has every
  element below 256).
* Python exceptions raised by the codec become constructors of `PyErr`, and
  fallible operations return `Except PyErr α`.
* The 32-bit float fields (`start_frame`, `unk8`, `pitch`) never participate in
  arithmetic: `struct.unpack` turns the 4 wire bytes into a Python float and
  `struct.pack` turns that float back into the identical 4 bytes (widening an
  IEEE binary32 value to the Python double and narrowing it back is exact).
  The embedding therefore stores each float field as the raw 32-bit pattern,
  a `Nat` below 2 ^ 32.
* `JAUSoundIdTable._lookup_` is a Python `dict`, embedded as an
  insertion-ordered association list with update-in-place semantics
  (re-assigning an existing key keeps its position and replaces its value).
* The JSON text written by `dump_json` and read back by `from_json` is
  embedded as the tree `JsonAnim`; serialization syntax is irrelevant to the
  claims, only the key/field mapping matters.
-/

/-- Python exceptions raised by bas.py, by raise site:
`KeyError` from `JAUSoundIdTable.find_name` / dict lookup in `find_id`
(the spec's LookupNotFound); `struct.error` from `unpack_from` on a too-short
buffer (the spec's TruncatedBuffer); `struct.error` from `pack_into` on an
argument outside its format range; `ValueError` from tuple unpacking of
`split(",")` or from `int()` (the spec's MalformedSource); `FileNotFoundError`
from `JAUSoundIdTable.__init__` (the spec's SourceUnavailable). -/
inductive PyErr where
  | keyError
  | structUnpackError
  | structPackError
  | valueError
  | fileNotFound
deriving DecidableEq

instance exceptDecEq {ε α : Type} [DecidableEq ε] [DecidableEq α] :
    DecidableEq (Except ε α) := fun x y =>
  match x, y with
  | .ok a, .ok b =>
    if h : a = b then .isTrue (by rw [h])
    else .isFalse (by intro hc; cases hc; exact h rfl)
  | .error a, .error b =>
    if h : a = b then .isTrue (by rw [h])
    else .isFalse (by intro hc; cases hc; exact h rfl)
  | .ok _, .error _ => .isFalse (by intro hc; cases hc)
  | .error _, .ok _ => .isFalse (by intro hc; cases hc)

/-- A Python value that can sit in the dynamically-typed `sound` attribute of
`JAUSoundAnimationSound`: normally a string (the sound label), but
`from_json` assigns it the JSON `start_frame` float (bas.py line 218).
A float is represented by the raw bits of its binary32 form. -/
inductive PyVal where
  | str (s : String)
  | flt (bits : Nat)
deriving DecidableEq

/-- JAUSoundIdTable._lookup_: a Python dict from sound name to sound id,
as an insertion-ordered association list. -/
abbrev Lookup := List (String × Int)

/-- A Python dict never holds a key twice; every `Lookup` built by
`mkSoundIdTable` satisfies this. -/
def lookupWF (t : Lookup) : Prop := (t.map Prod.fst).Nodup

instance : DecidablePred lookupWF := fun t =>
  inferInstanceAs (Decidable ((t.map Prod.fst).Nodup))

/-- Assignment `d[k] = v` on a Python dict: an existing key keeps its
insertion position and gets the new value, a new key is appended. -/
def dictInsert (d : Lookup) (k : String) (v : Int) : Lookup :=
  if d.any (fun p => p.1 = k) then
    d.map (fun p => if p.1 = k then (k, v) else p)
  else
    d ++ [(k, v)]

/-- Characters removed by `field.strip("\r\n")` in `JAUSoundIdTable.__init__`. -/
def isCRLF (c : Char) : Bool := c = '\r' || c = '\n'

/-- Python `str.strip("\r\n")`: drop the given characters from both ends. -/
def stripCRLF (cs : List Char) : List Char :=
  ((cs.dropWhile isCRLF).reverse.dropWhile isCRLF).reverse

def splitCommaAux : List Char → List Char → List (List Char)
  | [], acc => [acc.reverse]
  | c :: rest, acc =>
    if c = ',' then acc.reverse :: splitCommaAux rest []
    else splitCommaAux rest (c :: acc)

/-- Python `str.split(",")` (no maxsplit) over the characters of the line. -/
def splitComma (cs : List Char) : List (List Char) := splitCommaAux cs []

def isPyDigit (c : Char) : Bool := '0' ≤ c && c ≤ '9'

/-- ASCII whitespace stripped by Python `int(str)` before parsing. -/
def isPySpace (c : Char) : Bool :=
  c = ' ' || c = '\t' || c = '\n' || c = '\r' || c = '\x0b' || c = '\x0c'

/-- Validity of the digit part accepted by Python `int(str)`: after the first
digit, single underscores may separate digits. -/
def pyDigitsTail : List Char → Bool
  | [] => true
  | '_' :: rest =>
    (match rest with
     | c :: _ => isPyDigit c
     | [] => false) && pyDigitsTail rest
  | c :: rest => isPyDigit c && pyDigitsTail rest

def pyDigitsOk : List Char → Bool
  | [] => false
  | c :: rest => isPyDigit c && pyDigitsTail rest

def pyDigitsVal (cs : List Char) : Nat :=
  cs.foldl (fun a c => if c = '_' then a else a * 10 + (c.toNat - 48)) 0

/-- Python `int(str)`: strip whitespace, optional single sign, decimal digits
(with underscore separators). `none` models the `ValueError` it raises.
Note `int` accepts a leading `-`: negative ids parse successfully. -/
def pyInt (cs : List Char) : Option Int :=
  let t := ((cs.dropWhile isPySpace).reverse.dropWhile isPySpace).reverse
  match t with
  | '-' :: rest => if pyDigitsOk rest then some (-(pyDigitsVal rest : Int)) else none
  | '+' :: rest => if pyDigitsOk rest then some (pyDigitsVal rest) else none
  | _ => if pyDigitsOk t then some ((pyDigitsVal t : Nat) : Int) else none

/-- One iteration of the loop in `JAUSoundIdTable.__init__`:
`sound_name, sound_id_str = field.strip("\r\n").split(",")` (ValueError unless
exactly two fields) followed by `int(sound_id_str)` (ValueError on a
malformed id). -/
def parseLine (line : String) : Except PyErr (String × Int) :=
  match splitComma (stripCRLF line.toList) with
  | [nameCs, idCs] =>
    match pyInt idCs with
    | some i => .ok (String.mk nameCs, i)
    | none => .error .valueError
  | _ => .error .valueError

def buildLookup : List String → Lookup → Except PyErr Lookup
  | [], acc => .ok acc
  | l :: rest, acc =>
    match parseLine l with
    | .ok p => buildLookup rest (dictInsert acc p.1 p.2)
    | .error e => .error e

/-- JAUSoundIdTable.__init__ driven by the text lines of the lookup file
(each line still carries the terminator `readlines` leaves on it; `none`
models a missing file, raising FileNotFoundError). -/
def mkSoundIdTable : Option (List String) → Except PyErr Lookup
  | none => .error .fileNotFound
  | some fileLines => buildLookup fileLines []

/-- JAUSoundIdTable.find_name: iterate the dict items in order and return the
first name mapped to `sound_id`; KeyError when none matches. -/
def find_name (lookup : Lookup) (sound_id : Int) : Except PyErr String :=
  match lookup with
  | [] => .error .keyError
  | (name, index) :: rest =>
    if index = sound_id then .ok name else find_name rest sound_id

def findIdStr : Lookup → String → Except PyErr Int
  | [], _ => .error .keyError
  | (name, index) :: rest, s =>
    if name = s then .ok index else findIdStr rest s

/-- JAUSoundIdTable.find_id: `self._lookup_[sound_name]`, a dict access.
On a dict with unique keys this is the unique value for the key; a
non-string key (as left behind by `from_json`) never matches a string key,
so the access raises KeyError. -/
def find_id (lookup : Lookup) (sound_name : PyVal) : Except PyErr Int :=
  match sound_name with
  | .str s => findIdStr lookup s
  | _ => .error .keyError

/-- JAUSoundAnimationSound: one 32-byte sound entry. Wire layout (struct
format `I3fI6B6x`): u32 sound id, f32 start_frame, f32 unk8, f32 pitch,
u32 flags, six u8 fields, 6 padding bytes. Float fields store the raw 32
bits of the Python float (see the module comment). -/
structure JAUSoundAnimationSound where
  sound : PyVal
  start_frame : Nat
  unk8 : Nat
  pitch : Nat
  flags : Nat
  volume : Nat
  pitch_factor : Nat
  unk16 : Nat
  pan : Nat
  volume_factor : Nat
  unk19 : Nat
deriving DecidableEq

/-- JAUSoundAnimationSound.__init__: the default entry. `pitch` holds the
bits of the binary32 value 1.0. -/
def defaultSound : JAUSoundAnimationSound :=
  { sound := .str ""
    start_frame := 0
    unk8 := 0
    pitch := 1065353216
    flags := 0
    volume := 127
    pitch_factor := 0
    unk16 := 0
    pan := 64
    volume_factor := 0
    unk19 := 0 }

/-- JAUSoundAnimation: header fields `unk2`, `unk3`, the entry list (the
Python class extends `list`), and the lookup table handed to `__init__`. -/
structure JAUSoundAnimation where
  lookup : Lookup
  unk2 : Nat
  unk3 : Nat
  sounds : List JAUSoundAnimationSound
deriving DecidableEq

/-- Python exception propagation: run the continuation on a success, let an
exception abort the whole operation. This is exactly how every raise site in
bas.py behaves (no handlers exist in the module). -/
def ebind {α β : Type} (x : Except PyErr α) (f : α → Except PyErr β) :
    Except PyErr β :=
  match x with
  | .error e => .error e
  | .ok v => f v

theorem ebind_ok {α β : Type} {x : Except PyErr α} {a : α}
    (f : α → Except PyErr β) (hx : x = .ok a) : ebind x f = f a := by
  rw [hx]; rfl

theorem ebind_err {α β : Type} {x : Except PyErr α} {e : PyErr}
    (f : α → Except PyErr β) (hx : x = .error e) : ebind x f = .error e := by
  rw [hx]; rfl

/-- struct.unpack_from's bounds check followed by the read: the format needs
`n` bytes at `off`, and `struct.error` is raised when fewer remain. -/
def readBytes (data : List Nat) (off n : Nat) : Except PyErr (List Nat) :=
  if off + n ≤ data.length then .ok ((data.drop off).take n)
  else .error .structUnpackError

/-- Read a u16 at index `k` of a chunk, `>H` or `<H` per the endianness. -/
def readU16 (be : Bool) (chunk : List Nat) (k : Nat) : Nat :=
  if be then chunk.getD k 0 * 256 + chunk.getD (k + 1) 0
  else chunk.getD (k + 1) 0 * 256 + chunk.getD k 0

/-- Read a u32 (or the raw bits of an f32) at index `k` of a chunk. -/
def readU32 (be : Bool) (chunk : List Nat) (k : Nat) : Nat :=
  if be then
    chunk.getD k 0 * 16777216 + chunk.getD (k + 1) 0 * 65536 +
      chunk.getD (k + 2) 0 * 256 + chunk.getD (k + 3) 0
  else
    chunk.getD (k + 3) 0 * 16777216 + chunk.getD (k + 2) 0 * 65536 +
      chunk.getD (k + 1) 0 * 256 + chunk.getD k 0

/-- Field extraction of `JAUSoundAnimationSound._unpack_` from a 32-byte
chunk: `I3fI6B6x` in the requested byte order, then
`self.sound = lookup.find_name(sound_id)` (KeyError propagates). -/
def soundUnpackChunk (lookup : Lookup) (chunk : List Nat) (be : Bool) :
    Except PyErr JAUSoundAnimationSound :=
  match find_name lookup ((readU32 be chunk 0 : Nat) : Int) with
  | .error e => .error e
  | .ok name =>
    .ok { sound := .str name
          start_frame := readU32 be chunk 4
          unk8 := readU32 be chunk 8
          pitch := readU32 be chunk 12
          flags := readU32 be chunk 16
          volume := chunk.getD 20 0
          pitch_factor := chunk.getD 21 0
          unk16 := chunk.getD 22 0
          pan := chunk.getD 23 0
          volume_factor := chunk.getD 24 0
          unk19 := chunk.getD 25 0 }

/-- JAUSoundAnimationSound._unpack_: `strct.unpack_from(data, off)` (32 bytes)
and the field assignments. -/
def soundUnpack (lookup : Lookup) (data : List Nat) (off : Nat) (be : Bool) :
    Except PyErr JAUSoundAnimationSound :=
  ebind (readBytes data off 32) fun chunk => soundUnpackChunk lookup chunk be

/-- The entry loop of `JAUSoundAnimation._unpack_`: `num_entries` entries at
stride 32, appended in order; any failure aborts the whole decode. -/
def unpackEntries (lookup : Lookup) (data : List Nat) (off : Nat) (be : Bool) :
    Nat → Except PyErr (List JAUSoundAnimationSound)
  | 0 => .ok []
  | n + 1 =>
    ebind (soundUnpack lookup data off be) fun s =>
      ebind (unpackEntries lookup data (off + 32) be n) fun rest =>
        .ok (s :: rest)

/-- from_buffer / JAUSoundAnimation._unpack_: read the 8-byte header
(`H2B4x`: u16 entry count, u8 unk2, u8 unk3, 4 padding bytes skipped and not
validated), then the entries. -/
def from_buffer (lookup : Lookup) (data : List Nat) (offset : Nat) (be : Bool) :
    Except PyErr JAUSoundAnimation :=
  ebind (readBytes data offset 8) fun h =>
    ebind (unpackEntries lookup data (offset + 8) be (readU16 be h 0)) fun sounds =>
      .ok { lookup := lookup
            unk2 := h.getD 2 0
            unk3 := h.getD 3 0
            sounds := sounds }

/-- struct pack of a `B` value: `struct.error` unless `0 ≤ n ≤ 255`. -/
def packU8 (n : Nat) : Except PyErr (List Nat) :=
  if n < 256 then .ok [n] else .error .structPackError

/-- struct pack of an `H` value in the requested byte order. -/
def packU16 (be : Bool) (n : Nat) : Except PyErr (List Nat) :=
  if n < 65536 then
    .ok (if be then [n / 256, n % 256] else [n % 256, n / 256])
  else .error .structPackError

/-- struct pack of an `I` value (or of the raw bits of an f32 — pack writes
the same 4 bytes unpack read, see the module comment). -/
def packU32 (be : Bool) (n : Nat) : Except PyErr (List Nat) :=
  if n < 4294967296 then
    .ok (if be then
          [n / 16777216, n / 65536 % 256, n / 256 % 256, n % 256]
         else
          [n % 256, n / 256 % 256, n / 65536 % 256, n / 16777216])
  else .error .structPackError

/-- struct pack of an `I` value that is a Python int (the sound id from the
table): `struct.error` outside `[0, 2^32)`. -/
def packU32i (be : Bool) (i : Int) : Except PyErr (List Nat) :=
  if 0 ≤ i ∧ i < 4294967296 then packU32 be i.toNat
  else .error .structPackError

/-- JAUSoundAnimationSound._pack_: `lookup.find_id(self.sound)` (evaluated
first, KeyError propagates), then `pack_into` with format `I3fI6B6x` — the
fields range-checked (every range failure is the same `struct.error`), 6
zero bytes appended for `6x`. -/
def packFields (be : Bool) (sid : Int) (s : JAUSoundAnimationSound) :
    Except PyErr (List Nat) :=
  match packU32i be sid, packU32 be s.start_frame, packU32 be s.unk8,
      packU32 be s.pitch, packU32 be s.flags, packU8 s.volume,
      packU8 s.pitch_factor, packU8 s.unk16, packU8 s.pan,
      packU8 s.volume_factor, packU8 s.unk19 with
  | .ok idB, .ok sfB, .ok u8B, .ok piB, .ok flB, .ok vB, .ok pfB,
    .ok u16B, .ok panB, .ok vfB, .ok u19B =>
    .ok (idB ++ sfB ++ u8B ++ piB ++ flB ++ vB ++ pfB ++ u16B ++ panB ++
      vfB ++ u19B ++ [0, 0, 0, 0, 0, 0])
  | _, _, _, _, _, _, _, _, _, _, _ => .error .structPackError

def soundPack (lookup : Lookup) (s : JAUSoundAnimationSound) (be : Bool) :
    Except PyErr (List Nat) :=
  ebind (find_id lookup s.sound) fun sid => packFields be sid s

/-- The entry loop of `makebin`: pack each sound at stride 32, in order;
any failure aborts the whole encode. -/
def packSounds (lookup : Lookup) (be : Bool) :
    List JAUSoundAnimationSound → Except PyErr (List Nat)
  | [] => .ok []
  | s :: rest =>
    ebind (soundPack lookup s be) fun b =>
      ebind (packSounds lookup be rest) fun r =>
        .ok (b ++ r)

/-- JAUSoundAnimation.makebin: header `H2B4x` packed with `len(self)` (the
current entry count — there is no stored count field), `unk2`, `unk3`, 4
zero padding bytes, then every entry. The output buffer is
`8 + 32 * len(self)` bytes. -/
def makebin (soundanm : JAUSoundAnimation) (be : Bool) :
    Except PyErr (List Nat) :=
  ebind (packU16 be soundanm.sounds.length) fun cB =>
    ebind (packU8 soundanm.unk2) fun u2B =>
      ebind (packU8 soundanm.unk3) fun u3B =>
        ebind (packSounds soundanm.lookup be soundanm.sounds) fun body =>
          .ok (cB ++ u2B ++ u3B ++ [0, 0, 0, 0] ++ body)

/-- pack_buffer: delegates to `makebin`. -/
def pack_buffer (soundanm : JAUSoundAnimation) (be : Bool) :
    Except PyErr (List Nat) :=
  makebin soundanm be

/-- One per-entry object of the JSON tree written by `dump_json`
(`sound.__dict__`): all eleven attributes under their attribute names.
Float-valued attributes are stored as their binary32 bits, integer-valued
ones as the integer (a Python float written to JSON reads back equal). -/
structure JsonSound where
  sound : PyVal
  start_frame : Nat
  unk8 : Nat
  pitch : Nat
  flags : Nat
  volume : Nat
  pitch_factor : Nat
  unk16 : Nat
  pan : Nat
  volume_factor : Nat
  unk19 : Nat
deriving DecidableEq

/-- The JSON tree: keys `unk2`, `unk3`, `sounds`. -/
structure JsonAnim where
  unk2 : Nat
  unk3 : Nat
  sounds : List JsonSound
deriving DecidableEq

/-- dump_json: the tree it serializes (file I/O elided). Each entry is the
entry's `__dict__`, every field passed through unchanged. -/
def dump_json (soundanm : JAUSoundAnimation) : JsonAnim :=
  { unk2 := soundanm.unk2
    unk3 := soundanm.unk3
    sounds := soundanm.sounds.map (fun s =>
      { sound := s.sound
        start_frame := s.start_frame
        unk8 := s.unk8
        pitch := s.pitch
        flags := s.flags
        volume := s.volume
        pitch_factor := s.pitch_factor
        unk16 := s.unk16
        pan := s.pan
        volume_factor := s.volume_factor
        unk19 := s.unk19 }) }

/-- from_json (file I/O elided): builds a fresh animation from the tree.
Each entry starts from `JAUSoundAnimationSound()` defaults and is assigned
field by field exactly as in bas.py lines 217-227. Line 218 is
`sound.sound = sound_entry["start_frame"]`: the JSON `start_frame` float is
assigned to the `sound` attribute, the JSON `sound` key is never read, and
`start_frame` keeps its default. -/
def from_json (lookup : Lookup) (jsondata : JsonAnim) : JAUSoundAnimation :=
  { lookup := lookup
    unk2 := jsondata.unk2
    unk3 := jsondata.unk3
    sounds := jsondata.sounds.map (fun sound_entry =>
      { defaultSound with
        sound := .flt sound_entry.start_frame
        unk8 := sound_entry.unk8
        pitch := sound_entry.pitch
        flags := sound_entry.flags
        volume := sound_entry.volume
        pitch_factor := sound_entry.pitch_factor
        unk16 := sound_entry.unk16
        pan := sound_entry.pan
        volume_factor := sound_entry.volume_factor
        unk19 := sound_entry.unk19 }) }

/-- The entry count the buffer's header declares (used to state claims). -/
def headerCount (be : Bool) (data : List Nat) (offset : Nat) : Nat :=
  readU16 be ((data.drop offset).take 8) 0

/-- The 32-byte window of entry `i` (used to state claims). -/
def entryChunk (data : List Nat) (offset i : Nat) : List Nat :=
  (data.drop (offset + 8 + 32 * i)).take 32

/-- The wire sound id of entry `i` (used to state claims). -/
def entryId (be : Bool) (data : List Nat) (offset i : Nat) : Nat :=
  readU32 be (entryChunk data offset i) 0

/-! ## Helper predicates used in claim statements -/

/-- Does `find_name` succeed on this sound id? -/
def resolves (lookup : Lookup) (sound_id : Int) : Bool :=
  match find_name lookup sound_id with
  | .ok _ => true
  | .error _ => false

/-- Does `find_id` succeed on this sound attribute? -/
def nameResolves (lookup : Lookup) (sound_name : PyVal) : Bool :=
  match find_id lookup sound_name with
  | .ok _ => true
  | .error _ => false

/-- Every scalar field of the entry lies inside its wire-format range, so
none of the `pack_into` range checks fires. -/
def entryFieldsOk (s : JAUSoundAnimationSound) : Prop :=
  s.start_frame < 4294967296 ∧ s.unk8 < 4294967296 ∧ s.pitch < 4294967296 ∧
  s.flags < 4294967296 ∧ s.volume < 256 ∧ s.pitch_factor < 256 ∧
  s.unk16 < 256 ∧ s.pan < 256 ∧ s.volume_factor < 256 ∧ s.unk19 < 256

instance (s : JAUSoundAnimationSound) : Decidable (entryFieldsOk s) :=
  inferInstanceAs (Decidable (_ ∧ _))

/-- If the entry's sound resolves at all, the id it resolves to fits in a
u32 (so `pack_into`'s `I` check passes). -/
def idRangeOk (lookup : Lookup) (s : JAUSoundAnimationSound) : Prop :=
  ∀ i : Int, find_id lookup s.sound = .ok i → 0 ≤ i ∧ i < 4294967296

/-! ## Basic inversion lemmas -/

theorem parseLine_error_eq (l : String) (e : PyErr)
    (h : parseLine l = .error e) : e = .valueError := by
  unfold parseLine at h
  split at h
  · split at h
    · cases h
    · injection h with h'; exact h'.symm
  · injection h with h'; exact h'.symm

theorem find_name_error_eq (lookup : Lookup) (i : Int) (e : PyErr)
    (h : find_name lookup i = .error e) : e = .keyError := by
  induction lookup with
  | nil => injection h with h'; exact h'.symm
  | cons hd tl ih =>
    rw [find_name] at h
    split at h
    · cases h
    · exact ih h

theorem findIdStr_error_eq (lookup : Lookup) (s : String) (e : PyErr)
    (h : findIdStr lookup s = .error e) : e = .keyError := by
  induction lookup with
  | nil => injection h with h'; exact h'.symm
  | cons hd tl ih =>
    rw [show findIdStr (hd :: tl) s =
          (if hd.1 = s then .ok hd.2 else findIdStr tl s) from rfl] at h
    split at h
    · cases h
    · exact ih h

theorem find_id_error_eq (lookup : Lookup) (v : PyVal) (e : PyErr)
    (h : find_id lookup v = .error e) : e = .keyError := by
  cases v with
  | str s => exact findIdStr_error_eq lookup s e h
  | flt b => injection h with h'; exact h'.symm

theorem buildLookup_bad (fileLines : List String)
    (hbad : ∃ l ∈ fileLines, parseLine l = .error .valueError) :
    ∀ acc : Lookup, buildLookup fileLines acc = .error .valueError := by
  induction fileLines with
  | nil => rcases hbad with ⟨l, hl, _⟩; cases hl
  | cons hd tl ih =>
    intro acc
    rcases hbad with ⟨l, hl, hbadl⟩
    cases hp : parseLine hd with
    | error e =>
      rw [buildLookup, hp, parseLine_error_eq hd e hp]
    | ok p =>
      rw [buildLookup, hp]
      rcases List.mem_cons.mp hl with rfl | hltl
      · rw [hp] at hbadl; cases hbadl
      · exact ih ⟨l, hltl, hbadl⟩ _

/-! ## C3: resolver asymmetry -/

/-- The table built from lines `a,5`, `b,5`, `a,9` (a Python dict keeps a
re-assigned key at its original position with the new value). -/
def asymTable : Lookup := [("a", 9), ("b", 5)]

/-- C3, counterexample. The claim asserts `resolve_name(5) = "a"`; on the
code, `find_name` iterates the dict `{"a": 9, "b": 5}` and returns `"b"`,
because `"a"` no longer maps to 5 after the `a,9` overwrite. -/
theorem resolver_firstmatch_cex :
    mkSoundIdTable (some ["a,5\n", "b,5\n", "a,9"]) = .ok asymTable ∧
    find_name asymTable 5 ≠ .ok "a" ∧ find_name asymTable 5 = .ok "b" := by
  decide

/-- C3, amended. For the source lines `a,5`, `b,5`, `a,9`: forward lookup is
last-seen-wins (`find_id "a" = 9`), and reverse lookup returns the first
name in dict iteration order whose *current* value matches, which is `"b"`
(the pair `a ↦ 5` was overwritten away). -/
theorem resolver_asymmetry_amended :
    mkSoundIdTable (some ["a,5\n", "b,5\n", "a,9"]) = .ok asymTable ∧
    find_id asymTable (.str "a") = .ok 9 ∧
    find_name asymTable 5 = .ok "b" := by
  decide

/-! ## C9: resolver construction errors -/

/-- C9, counterexample. The claim asserts a negative ID field is rejected
with MalformedSource; the code calls Python `int`, which parses `-5`, so
construction from the line `a,-5` succeeds and stores the id −5. -/
theorem negative_id_accepted_cex :
    mkSoundIdTable (some ["a,-5"]) = .ok [("a", -5)] := by
  decide

/-- C9, amended. Construction fails with ValueError (MalformedSource) for
every input containing a line that cannot be split into exactly two
comma-separated fields or whose ID field is not a valid decimal integer in
Python's `int` syntax (which accepts a sign, so negative IDs are accepted,
not rejected); construction fails with FileNotFoundError (SourceUnavailable)
when the backing file is missing. `parseLine` is the per-line parser of
`JAUSoundIdTable.__init__`, whose only failure is `.error .valueError`. -/
theorem table_construction_errors :
    mkSoundIdTable none = .error .fileNotFound ∧
    ∀ fileLines : List String,
      (∃ l ∈ fileLines, parseLine l = .error .valueError) →
      mkSoundIdTable (some fileLines) = .error .valueError := by
  refine ⟨rfl, fun fileLines hbad => ?_⟩
  exact buildLookup_bad fileLines hbad []

/-- C9, witness for the amended theorem at the concrete lines
`["ok,3", "a,b,c"]` and at the missing file. -/
theorem table_construction_errors_witness :
    mkSoundIdTable none = .error .fileNotFound ∧
    mkSoundIdTable (some ["ok,3", "a,b,c"]) = .error .valueError :=
  ⟨table_construction_errors.1,
   table_construction_errors.2 ["ok,3", "a,b,c"]
     ⟨"a,b,c", by decide, by decide⟩⟩

/-! ## C4: the interchange adapter drops fields -/

/-- A one-entry animation whose entry is named `a` (id 5 in the resolver)
and starts at frame 2.0 (binary32 bits 0x40000000). -/
def jsonBugAnim : JAUSoundAnimation :=
  { lookup := [("a", 5)]
    unk2 := 1
    unk3 := 2
    sounds := [{ defaultSound with sound := .str "a", start_frame := 1073741824 }] }

/-- C4: `dump_json` followed by `from_json` does not reproduce the
animation. bas.py line 218 reads `sound.sound = sound_entry["start_frame"]`,
so the decoded entry's `sound` attribute holds the float 2.0 (not the name
`"a"`) and `start_frame` keeps its default 0.0. -/
theorem json_roundtrip_drops_fields :
    from_json [("a", 5)] (dump_json jsonBugAnim) ≠ jsonBugAnim ∧
    (from_json [("a", 5)] (dump_json jsonBugAnim)).sounds.map
        (fun s => (s.sound, s.start_frame)) = [(.flt 1073741824, 0)] ∧
    jsonBugAnim.sounds.map (fun s => (s.sound, s.start_frame)) =
      [(.str "a", 1073741824)] := by
  decide

/-! ## Byte-level packing lemmas -/

theorem packU8_ok (n : Nat) (h : n < 256) : packU8 n = .ok [n] := by
  rw [packU8, if_pos h]

theorem packU16_be (n : Nat) (h : n < 65536) :
    packU16 true n = .ok [n / 256, n % 256] := by
  rw [packU16, if_pos h]; rfl

theorem packU16_le (n : Nat) (h : n < 65536) :
    packU16 false n = .ok [n % 256, n / 256] := by
  rw [packU16, if_pos h]; rfl

theorem packU32_be (n : Nat) (h : n < 4294967296) :
    packU32 true n = .ok [n / 16777216, n / 65536 % 256, n / 256 % 256, n % 256] := by
  rw [packU32, if_pos h]; rfl

theorem packU32_le (n : Nat) (h : n < 4294967296) :
    packU32 false n = .ok [n % 256, n / 256 % 256, n / 65536 % 256, n / 16777216] := by
  rw [packU32, if_pos h]; rfl

theorem packU32_be_bytes (b0 b1 b2 b3 : Nat)
    (h0 : b0 < 256) (h1 : b1 < 256) (h2 : b2 < 256) (h3 : b3 < 256) :
    packU32 true (b0 * 16777216 + b1 * 65536 + b2 * 256 + b3) = .ok [b0, b1, b2, b3] := by
  rw [packU32_be _ (by omega)]
  congr 1
  simp only [List.cons.injEq, and_true]
  refine ⟨?_, ?_, ?_, ?_⟩ <;> omega

theorem packU32_le_bytes (b0 b1 b2 b3 : Nat)
    (h0 : b0 < 256) (h1 : b1 < 256) (h2 : b2 < 256) (h3 : b3 < 256) :
    packU32 false (b3 * 16777216 + b2 * 65536 + b1 * 256 + b0) = .ok [b0, b1, b2, b3] := by
  rw [packU32_le _ (by omega)]
  congr 1
  simp only [List.cons.injEq, and_true]
  refine ⟨?_, ?_, ?_, ?_⟩ <;> omega

theorem packU32i_nat (be : Bool) (n : Nat) (h : n < 4294967296) :
    packU32i be ((n : Nat) : Int) = packU32 be n := by
  rw [packU32i, if_pos ⟨Int.ofNat_nonneg n, by exact_mod_cast h⟩, Int.toNat_ofNat]

theorem packU32i_be_bytes (b0 b1 b2 b3 : Nat)
    (h0 : b0 < 256) (h1 : b1 < 256) (h2 : b2 < 256) (h3 : b3 < 256) :
    packU32i true ((b0 * 16777216 + b1 * 65536 + b2 * 256 + b3 : Nat) : Int) =
      .ok [b0, b1, b2, b3] := by
  rw [packU32i_nat _ _ (by omega)]
  exact packU32_be_bytes b0 b1 b2 b3 h0 h1 h2 h3

theorem packU32i_le_bytes (b0 b1 b2 b3 : Nat)
    (h0 : b0 < 256) (h1 : b1 < 256) (h2 : b2 < 256) (h3 : b3 < 256) :
    packU32i false ((b3 * 16777216 + b2 * 65536 + b1 * 256 + b0 : Nat) : Int) =
      .ok [b0, b1, b2, b3] := by
  rw [packU32i_nat _ _ (by omega)]
  exact packU32_le_bytes b0 b1 b2 b3 h0 h1 h2 h3

theorem getD_lt_256 (l : List Nat) (hb : ∀ b ∈ l, b < 256) (i : Nat) :
    l.getD i 0 < 256 := by
  rcases h : l[i]? with _ | v
  · simp [List.getD, h]
  · have hv := List.getElem?_mem h
    simp [List.getD, h]
    exact hb v hv

/-! ## Lookup correspondence -/

theorem find_name_mem (lookup : Lookup) (i : Int) (nm : String)
    (h : find_name lookup i = .ok nm) : (nm, i) ∈ lookup := by
  induction lookup with
  | nil => cases h
  | cons hd tl ih =>
    obtain ⟨a, b⟩ := hd
    rw [find_name] at h
    by_cases hc : b = i
    · rw [if_pos hc] at h
      injection h with h'
      subst h'; subst hc
      exact List.mem_cons_self _ _
    · rw [if_neg hc] at h
      exact List.mem_cons_of_mem _ (ih h)

theorem findIdStr_of_mem (lookup : Lookup) (nm : String) (i : Int)
    (hwf : lookupWF lookup) (hmem : (nm, i) ∈ lookup) :
    findIdStr lookup nm = .ok i := by
  induction lookup with
  | nil => cases hmem
  | cons hd tl ih =>
    obtain ⟨a, b⟩ := hd
    simp only [lookupWF, List.map_cons, List.nodup_cons] at hwf
    rw [findIdStr]
    rcases List.mem_cons.mp hmem with heq | htl
    · cases heq
      rw [if_pos rfl]
    · by_cases hc : a = nm
      · exact absurd (hc ▸ List.mem_map_of_mem Prod.fst htl) hwf.1
      · rw [if_neg hc]
        exact ih hwf.2 htl

theorem find_name_find_id (lookup : Lookup) (i : Int) (nm : String)
    (hwf : lookupWF lookup) (h : find_name lookup i = .ok nm) :
    find_id lookup (.str nm) = .ok i :=
  findIdStr_of_mem lookup nm i hwf (find_name_mem lookup i nm h)

theorem resolves_true_iff (lookup : Lookup) (i : Int) :
    resolves lookup i = true ↔ ∃ nm, find_name lookup i = .ok nm := by
  unfold resolves
  split
  · next nm heq => exact ⟨fun _ => ⟨nm, heq⟩, fun _ => rfl⟩
  · next e heq =>
    constructor
    · intro h; cases h
    · rintro ⟨nm, hnm⟩; rw [hnm] at heq; cases heq

theorem resolves_false_err (lookup : Lookup) (i : Int)
    (h : resolves lookup i = false) : find_name lookup i = .error .keyError := by
  unfold resolves at h
  split at h
  · cases h
  · next e heq => rw [heq, find_name_error_eq lookup i e heq]

theorem nameResolves_false_err (lookup : Lookup) (v : PyVal)
    (h : nameResolves lookup v = false) : find_id lookup v = .error .keyError := by
  unfold nameResolves at h
  split at h
  · cases h
  · next e heq => rw [heq, find_id_error_eq lookup v e heq]

theorem nameResolves_true_iff (lookup : Lookup) (v : PyVal) :
    nameResolves lookup v = true ↔ ∃ i, find_id lookup v = .ok i := by
  unfold nameResolves
  split
  · next i heq => exact ⟨fun _ => ⟨i, heq⟩, fun _ => rfl⟩
  · next e heq =>
    constructor
    · intro h; cases h
    · rintro ⟨i, hi⟩; rw [hi] at heq; cases heq

/-! ## Entry-level round trip -/

theorem soundPack_eval (lookup : Lookup) (s : JAUSoundAnimationSound) (be : Bool)
    {sid : Int} {idB sfB u8B piB flB vB pfB u16B panB vfB u19B : List Nat}
    (h0 : find_id lookup s.sound = .ok sid)
    (h1 : packU32i be sid = .ok idB)
    (h2 : packU32 be s.start_frame = .ok sfB)
    (h3 : packU32 be s.unk8 = .ok u8B)
    (h4 : packU32 be s.pitch = .ok piB)
    (h5 : packU32 be s.flags = .ok flB)
    (h6 : packU8 s.volume = .ok vB)
    (h7 : packU8 s.pitch_factor = .ok pfB)
    (h8 : packU8 s.unk16 = .ok u16B)
    (h9 : packU8 s.pan = .ok panB)
    (h10 : packU8 s.volume_factor = .ok vfB)
    (h11 : packU8 s.unk19 = .ok u19B) :
    soundPack lookup s be =
      .ok (idB ++ sfB ++ u8B ++ piB ++ flB ++ vB ++ pfB ++ u16B ++ panB ++
        vfB ++ u19B ++ [0, 0, 0, 0, 0, 0]) := by
  have inner : packFields be sid s =
      .ok (idB ++ sfB ++ u8B ++ piB ++ flB ++ vB ++ pfB ++ u16B ++ panB ++
        vfB ++ u19B ++ [0, 0, 0, 0, 0, 0]) := by
    unfold packFields
    rw [h1, h2, h3, h4, h5, h6, h7, h8, h9, h10, h11]
  unfold soundPack
  rw [ebind_ok _ h0]
  exact inner

set_option maxRecDepth 8192 in
theorem soundChunk_roundtrip (lookup : Lookup) (be : Bool) (chunk : List Nat)
    (s : JAUSoundAnimationSound) (hwf : lookupWF lookup)
    (h32 : chunk.length = 32) (hb : ∀ b ∈ chunk, b < 256)
    (hu : soundUnpackChunk lookup chunk be = .ok s) :
    soundPack lookup s be = .ok (chunk.take 26 ++ [0, 0, 0, 0, 0, 0]) ∧
    soundUnpackChunk lookup (chunk.take 26 ++ [0, 0, 0, 0, 0, 0]) be = .ok s := by
  rcases chunk with _ | ⟨b0, c⟩; · simp at h32
  rcases c with _ | ⟨b1, c⟩; · simp at h32
  rcases c with _ | ⟨b2, c⟩; · simp at h32
  rcases c with _ | ⟨b3, c⟩; · simp at h32
  rcases c with _ | ⟨b4, c⟩; · simp at h32
  rcases c with _ | ⟨b5, c⟩; · simp at h32
  rcases c with _ | ⟨b6, c⟩; · simp at h32
  rcases c with _ | ⟨b7, c⟩; · simp at h32
  rcases c with _ | ⟨b8, c⟩; · simp at h32
  rcases c with _ | ⟨b9, c⟩; · simp at h32
  rcases c with _ | ⟨b10, c⟩; · simp at h32
  rcases c with _ | ⟨b11, c⟩; · simp at h32
  rcases c with _ | ⟨b12, c⟩; · simp at h32
  rcases c with _ | ⟨b13, c⟩; · simp at h32
  rcases c with _ | ⟨b14, c⟩; · simp at h32
  rcases c with _ | ⟨b15, c⟩; · simp at h32
  rcases c with _ | ⟨b16, c⟩; · simp at h32
  rcases c with _ | ⟨b17, c⟩; · simp at h32
  rcases c with _ | ⟨b18, c⟩; · simp at h32
  rcases c with _ | ⟨b19, c⟩; · simp at h32
  rcases c with _ | ⟨b20, c⟩; · simp at h32
  rcases c with _ | ⟨b21, c⟩; · simp at h32
  rcases c with _ | ⟨b22, c⟩; · simp at h32
  rcases c with _ | ⟨b23, c⟩; · simp at h32
  rcases c with _ | ⟨b24, c⟩; · simp at h32
  rcases c with _ | ⟨b25, c⟩; · simp at h32
  rcases c with _ | ⟨b26, c⟩; · simp at h32
  rcases c with _ | ⟨b27, c⟩; · simp at h32
  rcases c with _ | ⟨b28, c⟩; · simp at h32
  rcases c with _ | ⟨b29, c⟩; · simp at h32
  rcases c with _ | ⟨b30, c⟩; · simp at h32
  rcases c with _ | ⟨b31, c⟩; · simp at h32
  simp only [List.length_cons, List.length_nil] at h32
  obtain rfl : c = [] := List.eq_nil_of_length_eq_zero (by omega)
  simp only [List.forall_mem_cons] at hb
  unfold soundUnpackChunk at hu
  split at hu
  · cases hu
  next name heq =>
  injection hu with hs
  subst hs
  cases be with
  | true =>
    simp only [readU32, if_true, List.getD_cons_succ, List.getD_cons_zero] at heq
    have hid := find_name_find_id lookup _ name hwf heq
    refine ⟨(soundPack_eval _ _ _ hid
        (packU32i_be_bytes b0 b1 b2 b3 (by omega) (by omega) (by omega) (by omega))
        (packU32_be_bytes b4 b5 b6 b7 (by omega) (by omega) (by omega) (by omega))
        (packU32_be_bytes b8 b9 b10 b11 (by omega) (by omega) (by omega) (by omega))
        (packU32_be_bytes b12 b13 b14 b15 (by omega) (by omega) (by omega) (by omega))
        (packU32_be_bytes b16 b17 b18 b19 (by omega) (by omega) (by omega) (by omega))
        (packU8_ok b20 (by omega))
        (packU8_ok b21 (by omega))
        (packU8_ok b22 (by omega))
        (packU8_ok b23 (by omega))
        (packU8_ok b24 (by omega))
        (packU8_ok b25 (by omega))).trans
      (by simp only [List.take_succ_cons, List.take_zero, List.cons_append, List.nil_append]), ?_⟩
    simp only [soundUnpackChunk, readU32, if_true, List.getD_cons_succ, List.getD_cons_zero,
      List.take_succ_cons, List.take_zero, List.cons_append, List.nil_append, heq]
  | false =>
    simp only [readU32, Bool.false_eq_true, if_false, List.getD_cons_succ, List.getD_cons_zero] at heq
    have hid := find_name_find_id lookup _ name hwf heq
    refine ⟨(soundPack_eval _ _ _ hid
        (packU32i_le_bytes b0 b1 b2 b3 (by omega) (by omega) (by omega) (by omega))
        (packU32_le_bytes b4 b5 b6 b7 (by omega) (by omega) (by omega) (by omega))
        (packU32_le_bytes b8 b9 b10 b11 (by omega) (by omega) (by omega) (by omega))
        (packU32_le_bytes b12 b13 b14 b15 (by omega) (by omega) (by omega) (by omega))
        (packU32_le_bytes b16 b17 b18 b19 (by omega) (by omega) (by omega) (by omega))
        (packU8_ok b20 (by omega))
        (packU8_ok b21 (by omega))
        (packU8_ok b22 (by omega))
        (packU8_ok b23 (by omega))
        (packU8_ok b24 (by omega))
        (packU8_ok b25 (by omega))).trans
      (by simp only [List.take_succ_cons, List.take_zero, List.cons_append, List.nil_append]), ?_⟩
    simp only [soundUnpackChunk, readU32, Bool.false_eq_true, if_false, List.getD_cons_succ, List.getD_cons_zero,
      List.take_succ_cons, List.take_zero, List.cons_append, List.nil_append, heq]

theorem unpackEntries_repack (lookup : Lookup) (be : Bool) (hwf : lookupWF lookup) :
    ∀ (n : Nat) (data : List Nat) (off : Nat),
      off + 32 * n = data.length →
      (∀ b ∈ data, b < 256) →
      (∀ i < n, resolves lookup ((readU32 be ((data.drop (off + 32 * i)).take 32) 0 : Nat) : Int) = true) →
      (∀ i < n, ((data.drop (off + 32 * i)).take 32).drop 26 = [0, 0, 0, 0, 0, 0]) →
      ∃ sounds, unpackEntries lookup data off be n = .ok sounds ∧
        sounds.length = n ∧
        packSounds lookup be sounds = .ok (data.drop off) := by
  intro n
  induction n with
  | zero =>
    intro data off hlen _ _ _
    refine ⟨[], rfl, rfl, ?_⟩
    rw [List.drop_eq_nil_of_le (by omega)]
    rfl
  | succ n ih =>
    intro data off hlen hb hres hpad
    have hlen32 : off + 32 ≤ data.length := by omega
    have hchunklen : ((data.drop off).take 32).length = 32 := by
      simp only [List.length_take, List.length_drop]
      omega
    have hcb : ∀ b ∈ (data.drop off).take 32, b < 256 := fun b hbm =>
      hb b (List.mem_of_mem_drop (List.mem_of_mem_take hbm))
    have hres0 := hres 0 (by omega)
    rw [Nat.mul_zero, Nat.add_zero] at hres0
    obtain ⟨nm, hnm⟩ := (resolves_true_iff _ _).mp hres0
    have hex : ∃ s, soundUnpackChunk lookup ((data.drop off).take 32) be = .ok s := by
      unfold soundUnpackChunk
      rw [hnm]
      exact ⟨_, rfl⟩
    obtain ⟨s0, hu0⟩ := hex
    obtain ⟨hpk, _⟩ := soundChunk_roundtrip lookup be _ s0 hwf hchunklen hcb hu0
    have hpad0 := hpad 0 (by omega)
    rw [Nat.mul_zero, Nat.add_zero] at hpad0
    have hc : ((data.drop off).take 32).take 26 ++ [0, 0, 0, 0, 0, 0] = (data.drop off).take 32 := by
      rw [← hpad0]
      exact List.take_append_drop 26 _
    rw [hc] at hpk
    have hsu : soundUnpack lookup data off be = .ok s0 := by
      unfold soundUnpack
      rw [readBytes, if_pos hlen32]
      exact hu0
    obtain ⟨rest, hrest, hrestlen, hrestpack⟩ := ih data (off + 32) (by omega) hb
      (by
        intro i hi
        have := hres (i + 1) (by omega)
        rw [show off + 32 * (i + 1) = off + 32 + 32 * i by ring] at this
        exact this)
      (by
        intro i hi
        have := hpad (i + 1) (by omega)
        rw [show off + 32 * (i + 1) = off + 32 + 32 * i by ring] at this
        exact this)
    refine ⟨s0 :: rest, ?_, by simp [hrestlen], ?_⟩
    · rw [unpackEntries]
      simp only [ebind_ok _ hsu, ebind_ok _ hrest]
    · rw [packSounds]
      simp only [ebind_ok _ hpk, ebind_ok _ hrestpack]
      have hsplit : (data.drop off).take 32 ++ data.drop (off + 32) = data.drop off := by
        have h1 := List.take_append_drop 32 (data.drop off)
        rwa [List.drop_drop] at h1
      rw [hsplit]

/-! ## C1: byte-exact re-encoding -/

/-- C1: for every well-formed buffer (exact length `8 + 32 * N` where `N` is
the header's declared entry count, genuine bytes, the 4 header padding bytes
and every entry's 6 trailing padding bytes zero) whose entry sound ids all
resolve, decoding at offset 0 succeeds and re-encoding reproduces the buffer
byte for byte, for both byte orders. `lookupWF` states the resolver's dict
holds each key once, which every Python dict does. -/
theorem reencode_exact (lookup : Lookup) (be : Bool) (data : List Nat) (nEntries : Nat)
    (hwf : lookupWF lookup)
    (hb : ∀ b ∈ data, b < 256)
    (hN : headerCount be data 0 = nEntries)
    (hlen : data.length = 8 + 32 * nEntries)
    (hhpad : (data.drop 4).take 4 = [0, 0, 0, 0])
    (hepad : ∀ i < nEntries, (entryChunk data 0 i).drop 26 = [0, 0, 0, 0, 0, 0])
    (hres : ∀ i < nEntries, resolves lookup ((entryId be data 0 i : Nat) : Int) = true) :
    ∃ anm, from_buffer lookup data 0 be = .ok anm ∧ pack_buffer anm be = .ok data := by
  rcases data with _ | ⟨c0, d⟩; · simp only [List.length_nil] at hlen; omega
  rcases d with _ | ⟨c1, d⟩; · simp only [List.length_cons, List.length_nil] at hlen; omega
  rcases d with _ | ⟨c2, d⟩; · simp only [List.length_cons, List.length_nil] at hlen; omega
  rcases d with _ | ⟨c3, d⟩; · simp only [List.length_cons, List.length_nil] at hlen; omega
  rcases d with _ | ⟨c4, d⟩; · simp only [List.length_cons, List.length_nil] at hlen; omega
  rcases d with _ | ⟨c5, d⟩; · simp only [List.length_cons, List.length_nil] at hlen; omega
  rcases d with _ | ⟨c6, d⟩; · simp only [List.length_cons, List.length_nil] at hlen; omega
  rcases d with _ | ⟨c7, d⟩; · simp only [List.length_cons, List.length_nil] at hlen; omega
  simp only [List.length_cons] at hlen
  simp only [List.drop_succ_cons, List.drop_zero, List.take_succ_cons, List.take_zero] at hhpad
  obtain ⟨rfl, rfl, rfl, rfl⟩ : c4 = 0 ∧ c5 = 0 ∧ c6 = 0 ∧ c7 = 0 := by
    simpa using hhpad
  have hc0 : c0 < 256 := hb c0 (by simp)
  have hc1 : c1 < 256 := hb c1 (by simp)
  have hc2 : c2 < 256 := hb c2 (by simp)
  have hc3 : c3 < 256 := hb c3 (by simp)
  unfold headerCount at hN
  simp only [List.drop_zero, List.take_succ_cons, List.take_zero, readU16,
    List.getD_cons_zero, List.getD_cons_succ] at hN
  obtain ⟨sounds, hun, hslen, hpack⟩ :=
    unpackEntries_repack lookup be hwf nEntries (c0 :: c1 :: c2 :: c3 :: 0 :: 0 :: 0 :: 0 :: d) 8
      (by simp only [List.length_cons]; omega)
      hb
      (by
        intro i hi
        have := hres i hi
        simpa only [entryId, entryChunk, Nat.zero_add] using this)
      (by
        intro i hi
        have := hepad i hi
        simpa only [entryChunk, Nat.zero_add] using this)
  have hdrop8 : (c0 :: c1 :: c2 :: c3 :: 0 :: 0 :: 0 :: 0 :: d).drop 8 = d := rfl
  rw [hdrop8] at hpack
  refine ⟨⟨lookup, c2, c3, sounds⟩, ?_, ?_⟩
  · unfold from_buffer
    rw [readBytes, if_pos (by simp only [List.length_cons]; omega)]
    have step :
        (ebind (unpackEntries lookup (c0 :: c1 :: c2 :: c3 :: 0 :: 0 :: 0 :: 0 :: d) (0 + 8) be
            (readU16 be (((c0 :: c1 :: c2 :: c3 :: 0 :: 0 :: 0 :: 0 :: d).drop 0).take 8) 0))
          fun sounds =>
            .ok { lookup := lookup
                  unk2 := (((c0 :: c1 :: c2 :: c3 :: 0 :: 0 :: 0 :: 0 :: d).drop 0).take 8).getD 2 0
                  unk3 := (((c0 :: c1 :: c2 :: c3 :: 0 :: 0 :: 0 :: 0 :: d).drop 0).take 8).getD 3 0
                  sounds := sounds }) =
          .ok (⟨lookup, c2, c3, sounds⟩ : JAUSoundAnimation) := by
      have hcount : readU16 be (((c0 :: c1 :: c2 :: c3 :: 0 :: 0 :: 0 :: 0 :: d).drop 0).take 8) 0 = nEntries := by
        simp only [List.drop_zero, List.take_succ_cons, List.take_zero, readU16,
          List.getD_cons_zero, List.getD_cons_succ]
        exact hN
      rw [hcount]
      rw [show (0 + 8 : Nat) = 8 from rfl]
      rw [ebind_ok _ hun]
      rfl
    exact step
  · unfold pack_buffer makebin
    have hhdr : packU16 be (⟨lookup, c2, c3, sounds⟩ : JAUSoundAnimation).sounds.length = .ok [c0, c1] := by
      show packU16 be sounds.length = .ok [c0, c1]
      rw [hslen]
      cases be with
      | true =>
        simp only [if_true] at hN
        rw [packU16_be _ (by omega)]
        have : nEntries = c0 * 256 + c1 := by omega
        subst this
        congr 1
        simp only [List.cons.injEq, and_true]
        constructor <;> omega
      | false =>
        simp only [Bool.false_eq_true, if_false] at hN
        rw [packU16_le _ (by omega)]
        have : nEntries = c1 * 256 + c0 := by omega
        subst this
        congr 1
        simp only [List.cons.injEq, and_true]
        constructor <;> omega
    simp only [ebind_ok _ hhdr, ebind_ok _ (packU8_ok c2 hc2), ebind_ok _ (packU8_ok c3 hc3),
      ebind_ok _ hpack]
    simp only [List.cons_append, List.nil_append]

/-- Resolver used by the concrete witnesses. -/
def wLookup : Lookup := [("se_a", 5)]

/-- A well-formed one-entry big-endian buffer. -/
def wBufBE : List Nat :=
  [0, 1, 1, 2, 0, 0, 0, 0] ++
  [0, 0, 0, 5, 64, 0, 0, 0, 0, 0, 0, 0, 63, 128, 0, 0, 0, 0, 0, 9,
   100, 1, 2, 3, 4, 5, 0, 0, 0, 0, 0, 0]

/-- The same entry laid out little-endian. -/
def wBufLE : List Nat :=
  [1, 0, 1, 2, 0, 0, 0, 0] ++
  [5, 0, 0, 0, 0, 0, 0, 64, 0, 0, 0, 0, 0, 0, 128, 63, 9, 0, 0, 0,
   100, 1, 2, 3, 4, 5, 0, 0, 0, 0, 0, 0]

/-- C1, witness: the round trip at both byte orders on concrete buffers. -/
theorem reencode_exact_witness :
    (∃ anm, from_buffer wLookup wBufBE 0 true = .ok anm ∧
      pack_buffer anm true = .ok wBufBE) ∧
    (∃ anm, from_buffer wLookup wBufLE 0 false = .ok anm ∧
      pack_buffer anm false = .ok wBufLE) :=
  ⟨reencode_exact wLookup true wBufBE 1 (by decide) (by decide) (by decide)
      (by decide) (by decide) (by decide) (by decide),
   reencode_exact wLookup false wBufLE 1 (by decide) (by decide) (by decide)
      (by decide) (by decide) (by decide) (by decide)⟩

theorem readU16_lt (be : Bool) (chunk : List Nat) (k : Nat)
    (hb : ∀ b ∈ chunk, b < 256) : readU16 be chunk k < 65536 := by
  have h1 := getD_lt_256 chunk hb k
  have h2 := getD_lt_256 chunk hb (k + 1)
  cases be <;> simp only [readU16, if_true, Bool.false_eq_true, if_false] <;> omega

theorem unpackEntries_inv (lookup : Lookup) (be : Bool) (hwf : lookupWF lookup) :
    ∀ (n : Nat) (data : List Nat) (off : Nat) (sounds : List JAUSoundAnimationSound),
      (∀ b ∈ data, b < 256) →
      unpackEntries lookup data off be n = .ok sounds →
      ∃ body, packSounds lookup be sounds = .ok body ∧
        body.length = 32 * n ∧ (∀ b ∈ body, b < 256) ∧
        sounds.length = n ∧
        ∀ (data2 : List Nat) (off2 : Nat),
          off2 + 32 * n ≤ data2.length →
          (data2.drop off2).take (32 * n) = body →
          unpackEntries lookup data2 off2 be n = .ok sounds := by
  intro n
  induction n with
  | zero =>
    intro data off sounds _ hun
    injection hun with hs
    subst hs
    exact ⟨[], rfl, rfl, by simp, rfl, fun _ _ _ _ => rfl⟩
  | succ n ih =>
    intro data off sounds hb hun
    rw [unpackEntries] at hun
    cases hsu : soundUnpack lookup data off be with
    | error e => rw [ebind_err _ hsu] at hun; cases hun
    | ok s0 =>
    rw [ebind_ok _ hsu] at hun
    cases hrest : unpackEntries lookup data (off + 32) be n with
    | error e => rw [ebind_err _ hrest] at hun; cases hun
    | ok rest =>
    rw [ebind_ok _ hrest] at hun
    injection hun with hs
    subst hs
    unfold soundUnpack at hsu
    rw [readBytes] at hsu
    split at hsu
    case isFalse => rw [ebind_err _ rfl] at hsu; cases hsu
    case isTrue h32le =>
    rw [ebind_ok _ rfl] at hsu
    have hchunklen : ((data.drop off).take 32).length = 32 := by
      simp only [List.length_take, List.length_drop]
      omega
    have hcb : ∀ b ∈ (data.drop off).take 32, b < 256 := fun b hbm =>
      hb b (List.mem_of_mem_drop (List.mem_of_mem_take hbm))
    obtain ⟨hpk, hup⟩ := soundChunk_roundtrip lookup be _ s0 hwf hchunklen hcb hsu
    obtain ⟨body', hpk', hblen', hbb', hslen', hlocal'⟩ := ih data (off + 32) rest hb hrest
    have hclen : (((data.drop off).take 32).take 26 ++ [0, 0, 0, 0, 0, 0]).length = 32 := by
      simp only [List.length_append, List.length_take, List.length_drop]
      simp only [List.length_cons, List.length_nil]
      omega
    have hcbb : ∀ b ∈ ((data.drop off).take 32).take 26 ++ [0, 0, 0, 0, 0, 0], b < 256 := by
      intro b hbm
      rcases List.mem_append.mp hbm with h | h
      · exact hcb b (List.mem_of_mem_take h)
      · simp only [List.mem_cons, List.not_mem_nil, or_false] at h
        rcases h with rfl | rfl | rfl | rfl | rfl | rfl <;> omega
    refine ⟨(((data.drop off).take 32).take 26 ++ [0, 0, 0, 0, 0, 0]) ++ body', ?_, ?_, ?_, ?_, ?_⟩
    · rw [packSounds]
      simp only [ebind_ok _ hpk, ebind_ok _ hpk']
    · simp only [List.length_append, hblen']
      simp only [List.length_append, List.length_take, List.length_drop] at hclen ⊢
      omega
    · intro b hbm
      rcases List.mem_append.mp hbm with h | h
      · exact hcbb b h
      · exact hbb' b h
    · simp only [List.length_cons, hslen']
    · intro data2 off2 hlen2 hagree
      have hchunk2 : (data2.drop off2).take 32 =
          ((data.drop off).take 32).take 26 ++ [0, 0, 0, 0, 0, 0] := by
        have h1 : ((data2.drop off2).take (32 * (n + 1))).take 32 = (data2.drop off2).take 32 := by
          rw [List.take_take]
          congr 1
          omega
        rw [← h1, hagree, List.take_left' hclen]
      have hbody2 : (data2.drop (off2 + 32)).take (32 * n) = body' := by
        have h1 : ((data2.drop off2).take (32 * (n + 1))).drop 32 =
            ((data2.drop off2).drop 32).take (32 * (n + 1) - 32) := List.drop_take _ _ _
        rw [hagree, List.drop_left' hclen] at h1
        rw [List.drop_drop] at h1
        rw [show 32 * (n + 1) - 32 = 32 * n by omega] at h1
        exact h1.symm
      have hsu2 : soundUnpack lookup data2 off2 be = .ok s0 := by
        unfold soundUnpack
        rw [readBytes, if_pos (by omega)]
        rw [ebind_ok _ rfl, hchunk2]
        exact hup
      rw [unpackEntries]
      rw [ebind_ok _ hsu2]
      rw [ebind_ok _ (hlocal' data2 (off2 + 32) (by omega) hbody2)]

/-! ## C2: decode / encode / decode identity -/

/-- C2: any animation obtained by decoding a byte buffer re-encodes
successfully, and decoding the re-encoded bytes with the same resolver and
byte order returns a structurally identical animation (same `unk2`, `unk3`,
and the same entry list field by field, sound names included). -/
theorem decode_encode_decode (lookup : Lookup) (be : Bool) (data : List Nat)
    (off : Nat) (A : JAUSoundAnimation)
    (hwf : lookupWF lookup)
    (hb : ∀ b ∈ data, b < 256)
    (hdec : from_buffer lookup data off be = .ok A) :
    ∃ B, pack_buffer A be = .ok B ∧ from_buffer lookup B 0 be = .ok A := by
  unfold from_buffer at hdec
  rw [readBytes] at hdec
  split at hdec
  case isFalse => rw [ebind_err _ rfl] at hdec; cases hdec
  case isTrue h8le =>
  rw [ebind_ok _ rfl] at hdec
  cases hun : unpackEntries lookup data (off + 8) be
      (readU16 be ((data.drop off).take 8) 0) with
  | error e => rw [ebind_err _ hun] at hdec; cases hdec
  | ok sounds =>
  rw [ebind_ok _ hun] at hdec
  injection hdec with hA
  subst hA
  have hdrb : ∀ b ∈ (data.drop off).take 8, b < 256 := fun b hm =>
    hb b (List.mem_of_mem_drop (List.mem_of_mem_take hm))
  have hN16 : readU16 be ((data.drop off).take 8) 0 < 65536 :=
    readU16_lt be _ 0 hdrb
  obtain ⟨body, hpk, hblen, hbb, hslen, hlocal⟩ :=
    unpackEntries_inv lookup be hwf (readU16 be ((data.drop off).take 8) 0)
      data (off + 8) sounds hb hun
  have hu2 : ((data.drop off).take 8).getD 2 0 < 256 := getD_lt_256 _ hdrb 2
  have hu3 : ((data.drop off).take 8).getD 3 0 < 256 := getD_lt_256 _ hdrb 3
  obtain ⟨x0, x1, hpk16, hx0, hx1, hread⟩ :
      ∃ x0 x1, packU16 be (readU16 be ((data.drop off).take 8) 0) = .ok [x0, x1] ∧
        x0 < 256 ∧ x1 < 256 ∧
        ∀ t : List Nat, readU16 be (x0 :: x1 :: t) 0 =
          readU16 be ((data.drop off).take 8) 0 := by
    cases be with
    | true =>
      refine ⟨_ / 256, _ % 256, packU16_be _ hN16, by omega, by omega, ?_⟩
      intro t
      simp only [readU16, if_true, List.getD_cons_zero, List.getD_cons_succ]
      omega
    | false =>
      refine ⟨_ % 256, _ / 256, packU16_le _ hN16, by omega, by omega, ?_⟩
      intro t
      simp only [readU16, Bool.false_eq_true, if_false, List.getD_cons_zero,
        List.getD_cons_succ]
      omega
  refine ⟨x0 :: x1 :: ((data.drop off).take 8).getD 2 0 ::
      ((data.drop off).take 8).getD 3 0 :: 0 :: 0 :: 0 :: 0 :: body, ?_, ?_⟩
  · unfold pack_buffer makebin
    simp only [ebind_ok _ (show packU16 be sounds.length =
        Except.ok [x0, x1] by rw [hslen]; exact hpk16),
      ebind_ok _ (packU8_ok _ hu2), ebind_ok _ (packU8_ok _ hu3),
      ebind_ok _ hpk]
    simp only [List.cons_append, List.nil_append]
  · have hBlen : (x0 :: x1 :: ((data.drop off).take 8).getD 2 0 ::
        ((data.drop off).take 8).getD 3 0 :: 0 :: 0 :: 0 :: 0 :: body).length =
        8 + 32 * readU16 be ((data.drop off).take 8) 0 := by
      simp only [List.length_cons, hblen]
      omega
    unfold from_buffer
    rw [readBytes, if_pos (by omega)]
    rw [ebind_ok _ rfl]
    have hcnt : readU16 be
        (((x0 :: x1 :: ((data.drop off).take 8).getD 2 0 ::
          ((data.drop off).take 8).getD 3 0 :: 0 :: 0 :: 0 :: 0 :: body).drop 0).take 8) 0 =
        readU16 be ((data.drop off).take 8) 0 := by
      simp only [List.drop_zero, List.take_succ_cons]
      exact hread _
    rw [hcnt]
    rw [show (0 + 8 : Nat) = 8 from rfl]
    have htake : ((x0 :: x1 :: ((data.drop off).take 8).getD 2 0 ::
        ((data.drop off).take 8).getD 3 0 :: 0 :: 0 :: 0 :: 0 :: body).drop 8).take
          (32 * readU16 be ((data.drop off).take 8) 0) = body := by
      rw [show ((x0 :: x1 :: ((data.drop off).take 8).getD 2 0 ::
        ((data.drop off).take 8).getD 3 0 :: 0 :: 0 :: 0 :: 0 :: body).drop 8) = body from rfl]
      rw [← hblen, List.take_length]
    rw [ebind_ok _ (hlocal _ 8 (by omega) htake)]
    rfl

/-- The animation `wBufBE` decodes to (entry fields read off the wire). -/
def wAnm : JAUSoundAnimation :=
  { lookup := wLookup
    unk2 := 1
    unk3 := 2
    sounds := [{ sound := .str "se_a"
                 start_frame := 1073741824
                 unk8 := 0
                 pitch := 1065353216
                 flags := 9
                 volume := 100
                 pitch_factor := 1
                 unk16 := 2
                 pan := 3
                 volume_factor := 4
                 unk19 := 5 }] }

/-- C2, witness: the decoded animation of `wBufBE` survives an
encode/decode cycle unchanged. -/
theorem decode_encode_decode_witness :
    ∃ B, pack_buffer wAnm true = .ok B ∧ from_buffer wLookup B 0 true = .ok wAnm :=
  decode_encode_decode wLookup true wBufBE 0 wAnm (by decide) (by decide) (by decide)

/-! ## Packing success and shape -/

theorem soundPack_ok_shape (lookup : Lookup) (s : JAUSoundAnimationSound) (be : Bool)
    (sid : Int) (hfid : find_id lookup s.sound = .ok sid)
    (hs0 : 0 ≤ sid) (hs1 : sid < 4294967296)
    (hf : entryFieldsOk s) :
    ∃ bs, soundPack lookup s be = .ok bs ∧ bs.length = 32 ∧
      bs.drop 26 = [0, 0, 0, 0, 0, 0] ∧ (∀ b ∈ bs, b < 256) := by
  obtain ⟨h1, h2, h3, h4, h5, h6, h7, h8, h9, h10⟩ := hf
  have hidp : packU32i be sid = packU32 be sid.toNat := by
    rw [packU32i, if_pos ⟨hs0, hs1⟩]
  have hid32 : sid.toNat < 4294967296 := by omega
  cases be with
  | true =>
    refine ⟨_, soundPack_eval _ _ _ hfid (hidp.trans (packU32_be _ hid32))
      (packU32_be _ h1) (packU32_be _ h2) (packU32_be _ h3) (packU32_be _ h4)
      (packU8_ok _ h5) (packU8_ok _ h6) (packU8_ok _ h7) (packU8_ok _ h8)
      (packU8_ok _ h9) (packU8_ok _ h10), ?_, ?_, ?_⟩
    · simp only [List.cons_append, List.nil_append, List.length_cons, List.length_nil]
    · simp only [List.cons_append, List.nil_append, List.drop_succ_cons, List.drop_zero]
    · intro b hbm
      simp only [List.cons_append, List.nil_append, List.mem_cons,
        List.not_mem_nil, or_false] at hbm
      rcases hbm with rfl | rfl | rfl | rfl | rfl | rfl | rfl | rfl | rfl | rfl | rfl | rfl | rfl | rfl | rfl | rfl | rfl | rfl | rfl | rfl | rfl | rfl | rfl | rfl | rfl | rfl | rfl | rfl | rfl | rfl | rfl | rfl <;> omega
  | false =>
    refine ⟨_, soundPack_eval _ _ _ hfid (hidp.trans (packU32_le _ hid32))
      (packU32_le _ h1) (packU32_le _ h2) (packU32_le _ h3) (packU32_le _ h4)
      (packU8_ok _ h5) (packU8_ok _ h6) (packU8_ok _ h7) (packU8_ok _ h8)
      (packU8_ok _ h9) (packU8_ok _ h10), ?_, ?_, ?_⟩
    · simp only [List.cons_append, List.nil_append, List.length_cons, List.length_nil]
    · simp only [List.cons_append, List.nil_append, List.drop_succ_cons, List.drop_zero]
    · intro b hbm
      simp only [List.cons_append, List.nil_append, List.mem_cons,
        List.not_mem_nil, or_false] at hbm
      rcases hbm with rfl | rfl | rfl | rfl | rfl | rfl | rfl | rfl | rfl | rfl | rfl | rfl | rfl | rfl | rfl | rfl | rfl | rfl | rfl | rfl | rfl | rfl | rfl | rfl | rfl | rfl | rfl | rfl | rfl | rfl | rfl | rfl <;> omega

theorem packSounds_ok_shape (lookup : Lookup) (be : Bool) :
    ∀ sounds : List JAUSoundAnimationSound,
      (∀ s ∈ sounds, entryFieldsOk s ∧
        ∃ sid, find_id lookup s.sound = .ok sid ∧ 0 ≤ sid ∧ sid < 4294967296) →
      ∃ body, packSounds lookup be sounds = .ok body ∧
        body.length = 32 * sounds.length ∧
        (∀ i < sounds.length, (body.drop (32 * i + 26)).take 6 = [0, 0, 0, 0, 0, 0]) ∧
        (∀ b ∈ body, b < 256) := by
  intro sounds
  induction sounds with
  | nil =>
    intro _
    refine ⟨[], rfl, rfl, ?_, by simp⟩
    intro i hi
    simp only [List.length_nil] at hi
    exact absurd hi (by omega)
  | cons s rest ih =>
    intro hA
    obtain ⟨hf, sid, hfid, hs0, hs1⟩ := hA s (List.mem_cons_self s rest)
    obtain ⟨bs, hpk, hbs32, hbsdrop, hbsb⟩ :=
      soundPack_ok_shape lookup s be sid hfid hs0 hs1 hf
    obtain ⟨body', hpk', hblen', hpad', hbb'⟩ :=
      ih (fun t ht => hA t (List.mem_cons_of_mem s ht))
    refine ⟨bs ++ body', ?_, ?_, ?_, ?_⟩
    · rw [packSounds]
      simp only [ebind_ok _ hpk, ebind_ok _ hpk']
    · simp only [List.length_append, List.length_cons, hbs32, hblen']
      ring
    · intro i hi
      cases i with
      | zero =>
        simp only [Nat.mul_zero, Nat.zero_add]
        rw [List.drop_append_eq_append_drop, hbsdrop, hbs32]
        simp only [List.cons_append, List.nil_append]
        rw [show (26 - 32 : Nat) = 0 by omega, List.drop_zero]
        rw [show (6 : Nat) = 5 + 1 from rfl]
        simp only [List.take_succ_cons, List.take_zero]
      | succ i =>
        rw [List.drop_append_eq_append_drop,
          List.drop_eq_nil_of_le (by omega), hbs32, List.nil_append]
        rw [show 32 * (i + 1) + 26 - 32 = 32 * i + 26 by omega]
        exact hpad' i (by simp only [List.length_cons] at hi; omega)
    · intro b hbm
      rcases List.mem_append.mp hbm with h | h
      · exact hbsb b h
      · exact hbb' b h

theorem packU16_shape (be : Bool) (n : Nat) (h : n < 65536) :
    ∃ x0 x1, packU16 be n = .ok [x0, x1] ∧ x0 < 256 ∧ x1 < 256 ∧
      ∀ t : List Nat, readU16 be (x0 :: x1 :: t) 0 = n := by
  cases be with
  | true =>
    refine ⟨n / 256, n % 256, packU16_be n h, by omega, by omega, ?_⟩
    intro t
    simp only [readU16, if_true, List.getD_cons_zero, List.getD_cons_succ]
    omega
  | false =>
    refine ⟨n % 256, n / 256, packU16_le n h, by omega, by omega, ?_⟩
    intro t
    simp only [readU16, Bool.false_eq_true, if_false, List.getD_cons_zero,
      List.getD_cons_succ]
    omega

/-! ## C7: encode length and header count -/

/-- C7, amended: for every animation with fewer than 65536 entries, header
scalars in byte range, and entries whose fields fit their wire formats and
whose names resolve to u32-range ids, `pack_buffer` returns a byte string of
length exactly `8 + 32 * N` whose header count field reads back as `N`, the
current length of the entry sequence (the class stores no separate count
field — `makebin` packs `len(self)`). The embedding is purely functional, so
encoding cannot mutate its input. -/
theorem encode_shape (anm : JAUSoundAnimation) (be : Bool)
    (h16 : anm.sounds.length < 65536)
    (hu2 : anm.unk2 < 256) (hu3 : anm.unk3 < 256)
    (hents : ∀ s ∈ anm.sounds, entryFieldsOk s ∧
      ∃ sid, find_id anm.lookup s.sound = .ok sid ∧ 0 ≤ sid ∧ sid < 4294967296) :
    ∃ out, pack_buffer anm be = .ok out ∧
      out.length = 8 + 32 * anm.sounds.length ∧
      readU16 be out 0 = anm.sounds.length := by
  obtain ⟨body, hpkS, hblen, hpad, hbb⟩ := packSounds_ok_shape anm.lookup be anm.sounds hents
  obtain ⟨x0, x1, hpk16, hx0, hx1, hread⟩ := packU16_shape be anm.sounds.length h16
  unfold pack_buffer makebin
  simp only [ebind_ok _ hpk16, ebind_ok _ (packU8_ok _ hu2),
    ebind_ok _ (packU8_ok _ hu3), ebind_ok _ hpkS]
  refine ⟨_, rfl, ?_, ?_⟩
  · simp only [List.cons_append, List.nil_append, List.length_cons, hblen]
    omega
  · simp only [List.cons_append, List.nil_append]
    exact hread _

theorem packU8_inv {n : Nat} {l : List Nat} (h : packU8 n = .ok l) :
    n < 256 ∧ l = [n] := by
  unfold packU8 at h
  split at h
  · next hn => injection h with h'; exact ⟨hn, h'.symm⟩
  · cases h

theorem packU16_inv {be : Bool} {n : Nat} {l : List Nat}
    (h : packU16 be n = .ok l) :
    n < 65536 ∧ l = (if be then [n / 256, n % 256] else [n % 256, n / 256]) := by
  unfold packU16 at h
  split at h
  · next hn => injection h with h'; exact ⟨hn, h'.symm⟩
  · cases h

theorem packU32_inv {be : Bool} {n : Nat} {l : List Nat}
    (h : packU32 be n = .ok l) :
    n < 4294967296 ∧
    l = (if be then [n / 16777216, n / 65536 % 256, n / 256 % 256, n % 256]
         else [n % 256, n / 256 % 256, n / 65536 % 256, n / 16777216]) := by
  unfold packU32 at h
  split at h
  · next hn => injection h with h'; exact ⟨hn, h'.symm⟩
  · cases h

theorem packU32i_inv {be : Bool} {sid : Int} {l : List Nat}
    (h : packU32i be sid = .ok l) :
    (0 ≤ sid ∧ sid < 4294967296) ∧
    l = (if be then [sid.toNat / 16777216, sid.toNat / 65536 % 256,
           sid.toNat / 256 % 256, sid.toNat % 256]
         else [sid.toNat % 256, sid.toNat / 256 % 256,
           sid.toNat / 65536 % 256, sid.toNat / 16777216]) := by
  unfold packU32i at h
  split at h
  · next hc => exact ⟨hc, (packU32_inv h).2⟩
  · cases h

theorem soundPack_inv {lookup : Lookup} {s : JAUSoundAnimationSound} {be : Bool}
    {bs : List Nat} (h : soundPack lookup s be = .ok bs) :
    bs.length = 32 ∧ bs.drop 26 = [0, 0, 0, 0, 0, 0] := by
  unfold soundPack at h
  cases hfid : find_id lookup s.sound with
  | error e => rw [ebind_err _ hfid] at h; cases h
  | ok sid =>
  rw [ebind_ok _ hfid] at h
  unfold packFields at h
  split at h
  case h_2 => cases h
  case h_1 idB sfB u8B piB flB vB pfB u16B panB vfB u19B
      h1 h2 h3 h4 h5 h6 h7 h8 h9 h10 h11 =>
  injection h with hbs
  obtain ⟨-, rfl⟩ := packU32i_inv h1
  obtain ⟨-, rfl⟩ := packU32_inv h2
  obtain ⟨-, rfl⟩ := packU32_inv h3
  obtain ⟨-, rfl⟩ := packU32_inv h4
  obtain ⟨-, rfl⟩ := packU32_inv h5
  obtain ⟨-, rfl⟩ := packU8_inv h6
  obtain ⟨-, rfl⟩ := packU8_inv h7
  obtain ⟨-, rfl⟩ := packU8_inv h8
  obtain ⟨-, rfl⟩ := packU8_inv h9
  obtain ⟨-, rfl⟩ := packU8_inv h10
  obtain ⟨-, rfl⟩ := packU8_inv h11
  subst hbs
  cases be with
  | true =>
    simp only [if_true, List.cons_append, List.nil_append]
    constructor
    · simp only [List.length_cons, List.length_nil]
    · simp only [List.drop_succ_cons, List.drop_zero]
  | false =>
    simp only [Bool.false_eq_true, if_false, List.cons_append, List.nil_append]
    constructor
    · simp only [List.length_cons, List.length_nil]
    · simp only [List.drop_succ_cons, List.drop_zero]

theorem drop_append_past {l1 l2 : List Nat} {k m : Nat} (h : l1.length = k) :
    (l1 ++ l2).drop (k + m) = l2.drop m := by
  rw [List.drop_append_eq_append_drop, List.drop_eq_nil_of_le (by omega),
    List.nil_append, h]
  congr 1
  omega

theorem packSounds_inv (lookup : Lookup) (be : Bool) :
    ∀ (sounds : List JAUSoundAnimationSound) (body : List Nat),
      packSounds lookup be sounds = .ok body →
      body.length = 32 * sounds.length ∧
      ∀ i < sounds.length, (body.drop (32 * i + 26)).take 6 = [0, 0, 0, 0, 0, 0] := by
  intro sounds
  induction sounds with
  | nil =>
    intro body h
    injection h with h'
    subst h'
    refine ⟨rfl, ?_⟩
    intro i hi
    simp only [List.length_nil] at hi
    exact absurd hi (by omega)
  | cons s rest ih =>
    intro body h
    rw [packSounds] at h
    cases hpk : soundPack lookup s be with
    | error e => rw [ebind_err _ hpk] at h; cases h
    | ok bs =>
    rw [ebind_ok _ hpk] at h
    cases hrest : packSounds lookup be rest with
    | error e => rw [ebind_err _ hrest] at h; cases h
    | ok body' =>
    rw [ebind_ok _ hrest] at h
    injection h with hb
    subst hb
    obtain ⟨hbs32, hbsdrop⟩ := soundPack_inv hpk
    obtain ⟨hblen', hpad'⟩ := ih body' hrest
    constructor
    · simp only [List.length_append, List.length_cons, hbs32, hblen']
      ring
    · intro i hi
      cases i with
      | zero =>
        simp only [Nat.mul_zero, Nat.zero_add]
        rw [List.drop_append_eq_append_drop, hbsdrop, hbs32]
        simp only [List.cons_append, List.nil_append]
        rw [show (26 - 32 : Nat) = 0 by omega, List.drop_zero]
        rw [show (6 : Nat) = 5 + 1 from rfl]
        simp only [List.take_succ_cons, List.take_zero]
      | succ i =>
        rw [List.drop_append_eq_append_drop,
          List.drop_eq_nil_of_le (by omega), hbs32, List.nil_append]
        rw [show 32 * (i + 1) + 26 - 32 = 32 * i + 26 by omega]
        exact hpad' i (by simp only [List.length_cons] at hi; omega)

/-! ## C8: padding bytes of the encoded output -/

/-- C8: whenever `pack_buffer` produces output — in particular for animations
whose entries were default-constructed and then assigned — the 4 header
padding bytes and the 6 trailing bytes of every 32-byte entry slot are zero
(`pack_into` writes NUL for every `x` in the format). -/
theorem padding_zero_on_encode (anm : JAUSoundAnimation) (be : Bool)
    (out : List Nat) (h : pack_buffer anm be = .ok out) :
    (out.drop 4).take 4 = [0, 0, 0, 0] ∧
    ∀ i < anm.sounds.length, (out.drop (8 + 32 * i + 26)).take 6 = [0, 0, 0, 0, 0, 0] := by
  unfold pack_buffer makebin at h
  cases hc : packU16 be anm.sounds.length with
  | error e => rw [ebind_err _ hc] at h; cases h
  | ok cB =>
  rw [ebind_ok _ hc] at h
  cases h2 : packU8 anm.unk2 with
  | error e => rw [ebind_err _ h2] at h; cases h
  | ok u2B =>
  rw [ebind_ok _ h2] at h
  cases h3 : packU8 anm.unk3 with
  | error e => rw [ebind_err _ h3] at h; cases h
  | ok u3B =>
  rw [ebind_ok _ h3] at h
  cases hbody : packSounds anm.lookup be anm.sounds with
  | error e => rw [ebind_err _ hbody] at h; cases h
  | ok body =>
  rw [ebind_ok _ hbody] at h
  injection h with hout
  obtain ⟨h16, hcB⟩ := packU16_inv hc
  obtain ⟨-, rfl⟩ := packU8_inv h2
  obtain ⟨-, rfl⟩ := packU8_inv h3
  obtain ⟨hblen, hpadB⟩ := packSounds_inv anm.lookup be anm.sounds body hbody
  subst hcB
  have hgroup : ((if be then [anm.sounds.length / 256, anm.sounds.length % 256]
      else [anm.sounds.length % 256, anm.sounds.length / 256]) ++ [anm.unk2] ++
      [anm.unk3] ++ [0, 0, 0, 0]) ++ body = out := by
    rw [← hout]
  have hhdrlen : ((if be then [anm.sounds.length / 256, anm.sounds.length % 256]
      else [anm.sounds.length % 256, anm.sounds.length / 256]) ++ [anm.unk2] ++
      [anm.unk3] ++ [0, 0, 0, 0]).length = 8 := by
    cases be <;> simp
  constructor
  · rw [← hout]
    cases be with
    | true =>
      simp only [if_true, List.cons_append, List.nil_append,
        List.drop_succ_cons, List.drop_zero, List.take_succ_cons, List.take_zero]
    | false =>
      simp only [Bool.false_eq_true, if_false, List.cons_append, List.nil_append,
        List.drop_succ_cons, List.drop_zero, List.take_succ_cons, List.take_zero]
  · intro i hi
    rw [← hgroup]
    rw [show 8 + 32 * i + 26 = 8 + (32 * i + 26) by omega]
    rw [drop_append_past hhdrlen]
    exact hpadB i hi

/-- An animation with one entry whose `volume` was assigned 256, one past
the `B` range. -/
def volOOBAnm : JAUSoundAnimation :=
  { lookup := [("a", 0)]
    unk2 := 0
    unk3 := 0
    sounds := [{ defaultSound with sound := .str "a", volume := 256 }] }

/-- C7, counterexample: an animation with 1 entry (name resolvable) whose
`volume` field holds 256. `pack_into` raises `struct.error`, so no byte
string of length `8 + 32 * 1` is returned — the claim's universal statement
fails for entries with out-of-range field values (and likewise for 65536 or
more entries, where the header's `H` field overflows). -/
theorem encode_total_cex :
    pack_buffer volOOBAnm true = .error .structPackError := by
  decide

/-- A freshly-constructed animation: default entry, only the name assigned. -/
def freshAnm : JAUSoundAnimation :=
  { lookup := wLookup
    unk2 := 0
    unk3 := 0
    sounds := [{ defaultSound with sound := .str "se_a" }] }

/-- The bytes `freshAnm` encodes to. -/
def freshOut : List Nat :=
  [0, 1, 0, 0, 0, 0, 0, 0] ++
  [0, 0, 0, 5, 0, 0, 0, 0, 0, 0, 0, 0, 63, 128, 0, 0, 0, 0, 0, 0,
   127, 0, 0, 64, 0, 0, 0, 0, 0, 0, 0, 0]

/-- C7, witness for the amended theorem at a concrete one-entry animation. -/
theorem encode_shape_witness :
    ∃ out, pack_buffer freshAnm true = .ok out ∧
      out.length = 8 + 32 * freshAnm.sounds.length ∧
      readU16 true out 0 = freshAnm.sounds.length :=
  encode_shape freshAnm true (by decide) (by decide) (by decide)
    (by
      intro s hs
      simp only [freshAnm, List.mem_singleton] at hs
      subst hs
      exact ⟨by decide, 5, by decide, by decide, by decide⟩)

/-- C8, witness: the concrete encode of `freshAnm` and its padding bytes. -/
theorem padding_zero_on_encode_witness :
    ((freshOut.drop 4).take 4 = [0, 0, 0, 0]) ∧
    ∀ i < freshAnm.sounds.length,
      (freshOut.drop (8 + 32 * i + 26)).take 6 = [0, 0, 0, 0, 0, 0] :=
  padding_zero_on_encode freshAnm true freshOut (by decide)

theorem unpackEntries_keyError (lookup : Lookup) (be : Bool) :
    ∀ (n : Nat) (data : List Nat) (off : Nat),
      off + 32 * n ≤ data.length →
      (∃ i, i < n ∧ resolves lookup
        ((readU32 be ((data.drop (off + 32 * i)).take 32) 0 : Nat) : Int) = false) →
      unpackEntries lookup data off be n = .error .keyError := by
  intro n
  induction n with
  | zero =>
    intro data off _ hbad
    obtain ⟨i, hi, _⟩ := hbad
    exact absurd hi (by omega)
  | succ n ih =>
    intro data off hlen hbad
    obtain ⟨i, hi, hbadi⟩ := hbad
    cases hres0 : resolves lookup
        ((readU32 be ((data.drop off).take 32) 0 : Nat) : Int) with
    | false =>
      have hfn := resolves_false_err _ _ hres0
      have hchunkerr : soundUnpackChunk lookup ((data.drop off).take 32) be =
          .error .keyError := by
        unfold soundUnpackChunk
        rw [hfn]
      have hsu : soundUnpack lookup data off be = .error .keyError := by
        unfold soundUnpack
        rw [readBytes, if_pos (by omega)]
        exact hchunkerr
      rw [unpackEntries, ebind_err _ hsu]
    | true =>
      obtain ⟨nm, hnm⟩ := (resolves_true_iff _ _).mp hres0
      have hex : ∃ s, soundUnpackChunk lookup ((data.drop off).take 32) be = .ok s := by
        unfold soundUnpackChunk
        rw [hnm]
        exact ⟨_, rfl⟩
      obtain ⟨s0, hu0⟩ := hex
      have hsu : soundUnpack lookup data off be = .ok s0 := by
        unfold soundUnpack
        rw [readBytes, if_pos (by omega)]
        exact hu0
      rcases i with _ | j
      · rw [Nat.mul_zero, Nat.add_zero] at hbadi
        rw [hbadi] at hres0
        cases hres0
      · rw [unpackEntries, ebind_ok _ hsu]
        rw [ebind_err _ (ih data (off + 32) (by omega) ⟨j, by omega, by
          rw [show off + 32 + 32 * j = off + 32 * (j + 1) by ring]
          exact hbadi⟩)]

theorem packSounds_keyError (lookup : Lookup) (be : Bool) :
    ∀ sounds : List JAUSoundAnimationSound,
      (∀ s ∈ sounds, entryFieldsOk s ∧
        ∀ sid, find_id lookup s.sound = .ok sid → 0 ≤ sid ∧ sid < 4294967296) →
      (∃ s ∈ sounds, nameResolves lookup s.sound = false) →
      packSounds lookup be sounds = .error .keyError := by
  intro sounds
  induction sounds with
  | nil =>
    intro _ hbad
    obtain ⟨s, hs, _⟩ := hbad
    cases hs
  | cons s rest ih =>
    intro hall hbad
    cases hres : nameResolves lookup s.sound with
    | false =>
      have hfid := nameResolves_false_err _ _ hres
      have hsp : soundPack lookup s be = .error .keyError := by
        unfold soundPack
        rw [ebind_err _ hfid]
      rw [packSounds, ebind_err _ hsp]
    | true =>
      obtain ⟨sid, hfid⟩ := (nameResolves_true_iff _ _).mp hres
      obtain ⟨hf, hrange⟩ := hall s (List.mem_cons_self s rest)
      obtain ⟨h0, h1⟩ := hrange sid hfid
      obtain ⟨bs, hpk, _, _, _⟩ := soundPack_ok_shape lookup s be sid hfid h0 h1 hf
      rw [packSounds, ebind_ok _ hpk]
      refine ebind_err _ (ih (fun t ht => hall t (List.mem_cons_of_mem s ht)) ?_)
      obtain ⟨t, ht, hbadt⟩ := hbad
      rcases List.mem_cons.mp ht with rfl | htl
      · rw [hbadt] at hres; cases hres
      · exact ⟨t, htl, hbadt⟩

/-- C5: an unresolvable sound aborts in both directions with KeyError
(LookupNotFound) and no result. Decode side: a buffer long enough for its
declared entry count whose entries include one with an unresolvable wire id
decodes to `KeyError`, never to an animation. Encode side: an animation
(header fields and entry fields in wire range, resolvable ids in u32 range)
containing an entry whose name the resolver lacks encodes to `KeyError`,
never to bytes. -/
theorem lookup_notfound_aborts :
    (∀ (lookup : Lookup) (be : Bool) (data : List Nat) (off nEntries : Nat),
      headerCount be data off = nEntries →
      off + 8 + 32 * nEntries ≤ data.length →
      (∃ i, i < nEntries ∧
        resolves lookup ((entryId be data off i : Nat) : Int) = false) →
      from_buffer lookup data off be = .error .keyError) ∧
    (∀ (anm : JAUSoundAnimation) (be : Bool),
      anm.sounds.length < 65536 → anm.unk2 < 256 → anm.unk3 < 256 →
      (∀ s ∈ anm.sounds, entryFieldsOk s ∧
        ∀ sid, find_id anm.lookup s.sound = .ok sid → 0 ≤ sid ∧ sid < 4294967296) →
      (∃ s ∈ anm.sounds, nameResolves anm.lookup s.sound = false) →
      pack_buffer anm be = .error .keyError) := by
  constructor
  · intro lookup be data off nEntries hN hlen hbad
    unfold from_buffer
    rw [readBytes, if_pos (by omega), ebind_ok _ rfl]
    unfold headerCount at hN
    rw [hN]
    refine ebind_err _ (unpackEntries_keyError lookup be nEntries data (off + 8)
      (by omega) ?_)
    obtain ⟨i, hi, hbadi⟩ := hbad
    refine ⟨i, hi, ?_⟩
    simpa only [entryId, entryChunk] using hbadi
  · intro anm be h16 hu2 hu3 hall hbad
    obtain ⟨x0, x1, hpk16, _, _, _⟩ := packU16_shape be anm.sounds.length h16
    unfold pack_buffer makebin
    simp only [ebind_ok _ hpk16, ebind_ok _ (packU8_ok _ hu2),
      ebind_ok _ (packU8_ok _ hu3)]
    rw [ebind_err _ (packSounds_keyError anm.lookup be anm.sounds hall hbad)]

/-- A buffer declaring one entry whose wire sound id 99 has no match. -/
def wBufUnk : List Nat :=
  [0, 1, 0, 0, 0, 0, 0, 0] ++
  [0, 0, 0, 99, 0, 0, 0, 0, 0, 0, 0, 0, 0, 0, 0, 0, 0, 0, 0, 0,
   127, 0, 0, 64, 0, 0, 0, 0, 0, 0, 0, 0]

/-- An animation whose single entry carries a name the resolver lacks. -/
def wAnmUnk : JAUSoundAnimation :=
  { lookup := wLookup
    unk2 := 0
    unk3 := 0
    sounds := [{ defaultSound with sound := .str "nope" }] }

/-- C5, witness: both failure directions at concrete inputs. -/
theorem lookup_notfound_aborts_witness :
    from_buffer wLookup wBufUnk 0 true = .error .keyError ∧
    pack_buffer wAnmUnk true = .error .keyError :=
  ⟨lookup_notfound_aborts.1 wLookup true wBufUnk 0 1 (by decide) (by decide)
      ⟨0, by decide, by decide⟩,
   lookup_notfound_aborts.2 wAnmUnk true (by decide) (by decide) (by decide)
     (by
       intro s hs
       simp only [wAnmUnk, List.mem_singleton] at hs
       subst hs
       refine ⟨by decide, fun sid hsid => ?_⟩
       rw [show find_id wAnmUnk.lookup (PyVal.str "nope") =
         Except.error PyErr.keyError from by decide] at hsid
       cases hsid)
     ⟨{ defaultSound with sound := .str "nope" }, by decide, by decide⟩⟩

theorem unpackEntries_truncated (lookup : Lookup) (be : Bool) :
    ∀ (n : Nat) (data : List Nat) (off : Nat),
      off ≤ data.length →
      data.length < off + 32 * n →
      (∀ i, i < n → off + 32 * i + 32 ≤ data.length →
        resolves lookup ((readU32 be ((data.drop (off + 32 * i)).take 32) 0 : Nat) : Int) = true) →
      unpackEntries lookup data off be n = .error .structUnpackError := by
  intro n
  induction n with
  | zero =>
    intro data off hle hshort _
    exact absurd hshort (by omega)
  | succ n ih =>
    intro data off hle hshort hres
    by_cases h32 : off + 32 ≤ data.length
    · have h0res := hres 0 (by omega) (by omega)
      rw [Nat.mul_zero, Nat.add_zero] at h0res
      obtain ⟨nm, hnm⟩ := (resolves_true_iff _ _).mp h0res
      have hex : ∃ s, soundUnpackChunk lookup ((data.drop off).take 32) be = .ok s := by
        unfold soundUnpackChunk
        rw [hnm]
        exact ⟨_, rfl⟩
      obtain ⟨s0, hu0⟩ := hex
      have hsu : soundUnpack lookup data off be = .ok s0 := by
        unfold soundUnpack
        rw [readBytes, if_pos h32]
        exact hu0
      rw [unpackEntries, ebind_ok _ hsu]
      refine ebind_err _ (ih data (off + 32) h32 (by omega) ?_)
      intro i hi hfit
      have := hres (i + 1) (by omega) (by
        rw [show off + 32 * (i + 1) + 32 = off + 32 + 32 * i + 32 by ring]
        exact hfit)
      rw [show off + 32 * (i + 1) = off + 32 + 32 * i by ring] at this
      exact this
    · have hsu : soundUnpack lookup data off be = .error .structUnpackError := by
        unfold soundUnpack
        rw [readBytes, if_neg h32]
        rw [ebind_err _ rfl]
      rw [unpackEntries, ebind_err _ hsu]

/-- C6, amended: decoding a buffer shorter than `8 + 32 * N` bytes from the
offset, where `N` is the declared entry count, fails with `struct.error`
from `unpack_from` (TruncatedBuffer) and returns no animation — provided
every entry that is still fully contained in the buffer has a resolvable
sound id (otherwise the failure is the earlier entry's KeyError; decode is
all-or-nothing either way). -/
theorem truncation_detected (lookup : Lookup) (be : Bool) (data : List Nat)
    (off nEntries : Nat)
    (hN : headerCount be data off = nEntries)
    (hshort : data.length < off + 8 + 32 * nEntries)
    (hres : ∀ i, i < nEntries → off + 8 + 32 * i + 32 ≤ data.length →
      resolves lookup ((entryId be data off i : Nat) : Int) = true) :
    from_buffer lookup data off be = .error .structUnpackError := by
  by_cases h8 : off + 8 ≤ data.length
  · unfold from_buffer
    rw [readBytes, if_pos h8, ebind_ok _ rfl]
    unfold headerCount at hN
    rw [hN]
    refine ebind_err _ (unpackEntries_truncated lookup be nEntries data (off + 8)
      h8 (by omega) ?_)
    intro i hi hfit
    have := hres i hi (by omega)
    simpa only [entryId, entryChunk] using this
  · unfold from_buffer
    rw [readBytes, if_neg h8]
    rw [ebind_err _ rfl]

/-- A buffer declaring 2 entries but holding only 71 of the 72 needed
bytes; its first (fully contained) entry resolves. -/
def wBufTrunc : List Nat :=
  [0, 2, 0, 0, 0, 0, 0, 0] ++
  [0, 0, 0, 5, 0, 0, 0, 0, 0, 0, 0, 0, 0, 0, 0, 0, 0, 0, 0, 0,
   127, 0, 0, 64, 0, 0, 0, 0, 0, 0, 0, 0] ++
  List.replicate 31 0

/-- C6, witness: the truncated two-entry buffer fails with the unpack
`struct.error`. -/
theorem truncation_detected_witness :
    from_buffer wLookup wBufTrunc 0 true = .error .structUnpackError :=
  truncation_detected wLookup true wBufTrunc 0 2 (by decide) (by decide)
    (by decide)

/-- A 71-byte buffer declaring 2 entries whose first entry's id 99 is
unresolvable. -/
def wBufTruncUnk : List Nat :=
  [0, 2, 0, 0, 0, 0, 0, 0] ++
  [0, 0, 0, 99, 0, 0, 0, 0, 0, 0, 0, 0, 0, 0, 0, 0, 0, 0, 0, 0,
   127, 0, 0, 64, 0, 0, 0, 0, 0, 0, 0, 0] ++
  List.replicate 31 0

/-- C6, counterexample: a buffer of `8 + 32*2 - 1` bytes claiming 2 entries
does not always fail with the truncation `struct.error` — when a fully
contained earlier entry has an unresolvable id, decode fails with KeyError
first. -/
theorem truncation_error_cex :
    wBufTruncUnk.length = 8 + 32 * 2 - 1 ∧
    headerCount true wBufTruncUnk 0 = 2 ∧
    from_buffer wLookup wBufTruncUnk 0 true = .error .keyError ∧
    from_buffer wLookup wBufTruncUnk 0 true ≠ .error .structUnpackError := by
  decide

theorem unpackEntries_congr (lookup : Lookup) (be : Bool) :
    ∀ (n : Nat) (data1 : List Nat) (off1 : Nat) (data2 : List Nat) (off2 : Nat),
      off1 + 32 * n ≤ data1.length →
      off2 + 32 * n ≤ data2.length →
      (data1.drop off1).take (32 * n) = (data2.drop off2).take (32 * n) →
      unpackEntries lookup data1 off1 be n = unpackEntries lookup data2 off2 be n := by
  intro n
  induction n with
  | zero => intro _ _ _ _ _ _ _; rfl
  | succ n ih =>
    intro data1 off1 data2 off2 hlen1 hlen2 hagree
    have hc : (data1.drop off1).take 32 = (data2.drop off2).take 32 := by
      have h1 : ((data1.drop off1).take (32 * (n + 1))).take 32 =
          (data1.drop off1).take 32 := by
        rw [List.take_take]
        congr 1
        omega
      have h2 : ((data2.drop off2).take (32 * (n + 1))).take 32 =
          (data2.drop off2).take 32 := by
        rw [List.take_take]
        congr 1
        omega
      rw [← h1, ← h2, hagree]
    have hrest : (data1.drop (off1 + 32)).take (32 * n) =
        (data2.drop (off2 + 32)).take (32 * n) := by
      have h1 : ((data1.drop off1).take (32 * (n + 1))).drop 32 =
          (data1.drop (off1 + 32)).take (32 * n) := by
        rw [List.drop_take, List.drop_drop,
          show 32 * (n + 1) - 32 = 32 * n by omega]
      have h2 : ((data2.drop off2).take (32 * (n + 1))).drop 32 =
          (data2.drop (off2 + 32)).take (32 * n) := by
        rw [List.drop_take, List.drop_drop,
          show 32 * (n + 1) - 32 = 32 * n by omega]
      rw [← h1, ← h2, hagree]
    have hsu1 : soundUnpack lookup data1 off1 be =
        soundUnpackChunk lookup ((data1.drop off1).take 32) be := by
      unfold soundUnpack
      rw [readBytes, if_pos (by omega)]
      rw [ebind_ok _ rfl]
    have hsu2 : soundUnpack lookup data2 off2 be =
        soundUnpackChunk lookup ((data2.drop off2).take 32) be := by
      unfold soundUnpack
      rw [readBytes, if_pos (by omega)]
      rw [ebind_ok _ rfl]
    cases hs : soundUnpackChunk lookup ((data1.drop off1).take 32) be with
    | error e =>
      rw [unpackEntries, unpackEntries,
        ebind_err _ (hsu1.trans hs), ebind_err _ (hsu2.trans (hc ▸ hs))]
    | ok s0 =>
      rw [unpackEntries, unpackEntries,
        ebind_ok _ (hsu1.trans hs), ebind_ok _ (hsu2.trans (hc ▸ hs))]
      rw [ih data1 (off1 + 32) data2 (off2 + 32) (by omega) (by omega) hrest]

theorem unpackEntries_ok (lookup : Lookup) (be : Bool) :
    ∀ (n : Nat) (data : List Nat) (off : Nat),
      off + 32 * n ≤ data.length →
      (∀ i < n, resolves lookup
        ((readU32 be ((data.drop (off + 32 * i)).take 32) 0 : Nat) : Int) = true) →
      ∃ sounds, unpackEntries lookup data off be n = .ok sounds := by
  intro n
  induction n with
  | zero => exact fun _ _ _ _ => ⟨[], rfl⟩
  | succ n ih =>
    intro data off hlen hres
    have h0res := hres 0 (by omega)
    rw [Nat.mul_zero, Nat.add_zero] at h0res
    obtain ⟨nm, hnm⟩ := (resolves_true_iff _ _).mp h0res
    have hex : ∃ s, soundUnpackChunk lookup ((data.drop off).take 32) be = .ok s := by
      unfold soundUnpackChunk
      rw [hnm]
      exact ⟨_, rfl⟩
    obtain ⟨s0, hu0⟩ := hex
    have hsu : soundUnpack lookup data off be = .ok s0 := by
      unfold soundUnpack
      rw [readBytes, if_pos (by omega)]
      exact hu0
    obtain ⟨rest, hrest⟩ := ih data (off + 32) (by omega) (by
      intro i hi
      have := hres (i + 1) (by omega)
      rw [show off + 32 * (i + 1) = off + 32 + 32 * i by ring] at this
      exact this)
    refine ⟨s0 :: rest, ?_⟩
    rw [unpackEntries, ebind_ok _ hsu, ebind_ok _ hrest]

/-- C10: decoding reads only the window `[offset, offset + 8 + 32*N)`. Any
buffer covering that window decodes successfully when the entry ids resolve
(extra trailing bytes are ignored), and two buffers that agree on their
windows (relative to their own offsets) decode to the same result. -/
theorem decode_window_only (lookup : Lookup) (be : Bool)
    (data1 data2 : List Nat) (off1 off2 nEntries : Nat)
    (hN : headerCount be data1 off1 = nEntries)
    (hlen1 : off1 + 8 + 32 * nEntries ≤ data1.length)
    (hlen2 : off2 + 8 + 32 * nEntries ≤ data2.length)
    (hagree : (data1.drop off1).take (8 + 32 * nEntries) =
      (data2.drop off2).take (8 + 32 * nEntries))
    (hres : ∀ i < nEntries,
      resolves lookup ((entryId be data1 off1 i : Nat) : Int) = true) :
    (∃ A, from_buffer lookup data1 off1 be = .ok A) ∧
    from_buffer lookup data1 off1 be = from_buffer lookup data2 off2 be := by
  unfold headerCount at hN
  have hres' : ∀ i < nEntries, resolves lookup
      ((readU32 be ((data1.drop (off1 + 8 + 32 * i)).take 32) 0 : Nat) : Int) = true := by
    intro i hi
    have := hres i hi
    simpa only [entryId, entryChunk] using this
  constructor
  · obtain ⟨sounds, hok⟩ := unpackEntries_ok lookup be nEntries data1 (off1 + 8)
      (by omega) hres'
    refine ⟨{ lookup := lookup
              unk2 := ((data1.drop off1).take 8).getD 2 0
              unk3 := ((data1.drop off1).take 8).getD 3 0
              sounds := sounds }, ?_⟩
    unfold from_buffer
    rw [readBytes, if_pos (by omega), ebind_ok _ rfl, hN]
    rw [ebind_ok _ hok]
  · have hhdr : (data1.drop off1).take 8 = (data2.drop off2).take 8 := by
      have h1 : ((data1.drop off1).take (8 + 32 * nEntries)).take 8 =
          (data1.drop off1).take 8 := by
        rw [List.take_take]
        congr 1
        omega
      have h2 : ((data2.drop off2).take (8 + 32 * nEntries)).take 8 =
          (data2.drop off2).take 8 := by
        rw [List.take_take]
        congr 1
        omega
      rw [← h1, ← h2, hagree]
    have hrest : (data1.drop (off1 + 8)).take (32 * nEntries) =
        (data2.drop (off2 + 8)).take (32 * nEntries) := by
      have h1 : ((data1.drop off1).take (8 + 32 * nEntries)).drop 8 =
          (data1.drop (off1 + 8)).take (32 * nEntries) := by
        rw [List.drop_take, List.drop_drop]
        congr 1
        omega
      have h2 : ((data2.drop off2).take (8 + 32 * nEntries)).drop 8 =
          (data2.drop (off2 + 8)).take (32 * nEntries) := by
        rw [List.drop_take, List.drop_drop]
        congr 1
        omega
      rw [← h1, ← h2, hagree]
    unfold from_buffer
    rw [readBytes, readBytes, if_pos (by omega), if_pos (by omega),
      ebind_ok _ rfl, ebind_ok _ rfl]
    rw [hhdr] at hN ⊢
    rw [hN]
    rw [unpackEntries_congr lookup be nEntries data1 (off1 + 8) data2 (off2 + 8)
      (by omega) (by omega) hrest]

/-- The window of `wBufBE` embedded at offset 3 of a larger buffer with
trailing garbage. -/
def wBufShifted : List Nat := [9, 9, 9] ++ wBufBE ++ [7, 7, 7, 7, 7]

/-- C10, witness: decoding `wBufBE` at offset 0 succeeds and agrees with
decoding the same 40-byte window embedded at offset 3 of a longer buffer. -/
theorem decode_window_only_witness :
    (∃ A, from_buffer wLookup wBufBE 0 true = .ok A) ∧
    from_buffer wLookup wBufBE 0 true = from_buffer wLookup wBufShifted 3 true :=
  decode_window_only wLookup true wBufBE wBufShifted 0 3 1
    (by decide) (by decide) (by decide) (by decide) (by decide)
